import Mathlib

/-!
# Snake on an 8x8 LED matrix (ATmega32) : a model of `src/main.c`

The globals of `main.c` become the fields of `State`; every C function becomes a Lean
function on `State`.  `unsigned int` is 16 bits wide on the AVR, the timer register
`TCNT2` is 8 bits wide; arithmetic that can wrap is written with an explicit modulus.
Values that the program obtains from the hardware (the port `PINC`, the running timer
`TCNT2`, the uninitialised stack array `copysnake`) are parameters of the functions.
-/

namespace Snake

/-- One `unsigned int [2]` entry `{dot[0], dot[1]}`: the row and the column. -/
abbrev Cell := Nat × Nat

/-- Subtraction of 16-bit `unsigned int` values (wraps below zero). -/
def usub16 (a b : Nat) : Nat := (a + 65536 - b) % 65536

/-- The globals of `main.c` together with the hardware registers the game logic uses.
`snake` is the 64-entry array `unsigned int snake[64][2]`. -/
structure State where
  snake : List Cell
  snake_len : Nat
  apple : Cell
  gameON : Nat
  speed : Nat
  button : Char
  collision : Nat
  snake_counter : Nat
  TCNT2 : Nat
  DDROW : Nat
  DDCOL : Nat
  ROW : Nat
  COL : Nat
deriving DecidableEq, Repr

/-- The value of the globals at program start (`snake = {{0,0},{0,1}}`, the other
entries of the array are zero-initialised). -/
def initState : State :=
  { snake := [(0, 0), (0, 1)] ++ List.replicate 62 (0, 0)
    snake_len := 2
    apple := (0, 0)
    gameON := 0
    speed := 200
    button := 'R'
    collision := 0
    snake_counter := 0
    TCNT2 := 0
    DDROW := 0
    DDCOL := 0
    ROW := 0
    COL := 0 }

/-- Read of `a[i]`.  An index outside the array, which C leaves undefined, reads `(0,0)`
here; under `snake_len ≤ 64` and an array of 64 entries no function below reads outside
the array, except the head read `snake[snake_len - 1]` at `snake_len = 0`. -/
def rd (a : List Cell) (i : Nat) : Cell := a.getD i (0, 0)

/-- Write `a[i] = v`.  An index outside the array, which C leaves undefined, writes
nothing here. -/
def wr (a : List Cell) (i : Nat) (v : Cell) : List Cell := a.set i v

/-- The loop `for (; j < j + k; j++) st = body j st`: `k` iterations starting at index `j`.
A C loop `for (j = 0; j < n; j++)` whose body does not change `n` is `forLoop body n 0`. -/
def forLoop {σ : Type} (body : Nat → σ → σ) : Nat → Nat → σ → σ
  | 0, _, st => st
  | k + 1, j, st => forLoop body k (j + 1) (body j st)

/-- Function `DotGoRight`: column + 1, wrapping from 7 to 0. -/
def DotGoRight (dot : Cell) : Cell :=
  if dot.2 < 7 then (dot.1, dot.2 + 1) else (dot.1, 0)

/-- Function `DotGoLeft`: column - 1, wrapping from 0 to 7. -/
def DotGoLeft (dot : Cell) : Cell :=
  if dot.2 > 0 then (dot.1, dot.2 - 1) else (dot.1, 7)

/-- Function `DotGoUp`: row - 1, wrapping from 0 to 7. -/
def DotGoUp (dot : Cell) : Cell :=
  if dot.1 > 0 then (dot.1 - 1, dot.2) else (7, dot.2)

/-- Function `DotGoDown`: row + 1, wrapping from 7 to 0. -/
def DotGoDown (dot : Cell) : Cell :=
  if dot.1 < 7 then (dot.1 + 1, dot.2) else (0, dot.2)

/-- The first loop of `move`: `copysnake[j] = snake[j]` for `j < snake_len`.
`junk` is the uninitialised content of the local array. -/
def copyLoop (snake : List Cell) (snake_len : Nat) (junk : List Cell) : List Cell :=
  forLoop (fun j cp => wr cp j (rd snake j)) snake_len 0 junk

/-- The `switch (c)` of `move`: the head `snake[snake_len - 1]` is moved in place;
`none` is the `default: return`. -/
def moveHead (c : Char) (snake : List Cell) (snake_len : Nat) : Option (List Cell) :=
  let h := usub16 snake_len 1
  match c with
  | 'R' => some (wr snake h (DotGoRight (rd snake h)))
  | 'L' => some (wr snake h (DotGoLeft (rd snake h)))
  | 'U' => some (wr snake h (DotGoUp (rd snake h)))
  | 'D' => some (wr snake h (DotGoDown (rd snake h)))
  | _ => none

/-- The last loop of `move`: `snake[j] = copysnake[j + 1]` for `j < snake_len - 1`. -/
def shiftLoop (copysnake : List Cell) (snake_len : Nat) (snake : List Cell) : List Cell :=
  forLoop (fun j sn => wr sn j (rd copysnake (j + 1))) (usub16 snake_len 1) 0 snake

/-- Function `move(c)`: copy the snake, move the head, shift the body. -/
def move (c : Char) (junk : List Cell) (s : State) : State :=
  let copysnake := copyLoop s.snake s.snake_len junk
  match moveHead c s.snake s.snake_len with
  | none => s
  | some sn => { s with snake := shiftLoop copysnake s.snake_len sn }

/-- Macro `UP_BUTTON`, i.e. `(PINC & (1 << PINC0))`, for the value `pinc` read from the port
(`PINC0 .. PINC3` are the bit numbers 0 .. 3 of `avr/io.h`). -/
def UP_BUTTON (pinc : Nat) : Nat := pinc &&& (1 <<< 0)

/-- Macro `RIGHT_BUTTON`, i.e. `(PINC & (1 << PINC1))`. -/
def RIGHT_BUTTON (pinc : Nat) : Nat := pinc &&& (1 <<< 1)

/-- Macro `LEFT_BUTTON`, i.e. `(PINC & (1 << PINC2))`. -/
def LEFT_BUTTON (pinc : Nat) : Nat := pinc &&& (1 <<< 2)

/-- Macro `DOWN_BUTTON`, i.e. `(PINC & (1 << PINC3))`. -/
def DOWN_BUTTON (pinc : Nat) : Nat := pinc &&& (1 <<< 3)

/-- Function `control()`: a C condition `x && y` holds when `x` is non-zero and `y` holds. -/
def control (pinc : Nat) (s : State) : Char :=
  if UP_BUTTON pinc ≠ 0 ∧ s.button ≠ 'D' then 'U'
  else if RIGHT_BUTTON pinc ≠ 0 ∧ s.button ≠ 'L' then 'R'
  else if LEFT_BUTTON pinc ≠ 0 ∧ s.button ≠ 'R' then 'L'
  else if DOWN_BUTTON pinc ≠ 0 ∧ s.button ≠ 'U' then 'D'
  else s.button

/-- The inner loop of `GetRandom`, `for (j = 0; j < snake_len; j++)`, run for `k` more
iterations from index `j`: `true` when it leaves through the `break` (some `snake[j]`
equals `rand2d`, so `appleonsnake = 1` and `TCNT2++`), `false` when it runs to the end. -/
def onSnake (snake : List Cell) (rand2d : Cell) : Nat → Nat → Bool
  | 0, _ => false
  | k + 1, j =>
    if (rd snake j).1 = rand2d.1 ∧ (rd snake j).2 = rand2d.2 then true
    else onSnake snake rand2d k (j + 1)

/-- Function `GetRandom()`.  The register `TCNT2` belongs to a timer that runs on its own:
`timer i v` is the value the `i`-th execution of `rand = TCNT2` finds in the register
when the program left the value `v` there.  `TCNT2++` stores the 8-bit successor of the
value just read.  `fuel` bounds the number of passes through `while (appleonsnake)`;
`none` means the loop has not been left within `fuel` passes. -/
def GetRandom (timer : Nat → Nat → Nat) : Nat → Nat → State → Option State
  | 0, _, _ => none
  | fuel + 1, i, s =>
    let rand := timer i s.TCNT2 % 256
    let rand2d : Cell := (rand >>> 3, rand &&& 0x07)
    if onSnake s.snake rand2d s.snake_len 0 then
      GetRandom timer fuel (i + 1) { s with TCNT2 := (rand + 1) % 256 }
    else
      some { s with apple := rand2d, TCNT2 := rand }

/-- The timer does not tick while `GetRandom` runs: the register changes through the
loop's own `TCNT2++` only. -/
def hold : Nat → Nat → Nat := fun _ v => v

/-- The timer delivers the readings `r 0, r 1, ...` whatever the program has stored. -/
def readings (r : Nat → Nat) : Nat → Nat → Nat := fun i _ => r i

/-- Function `SnakeGrow()`: when the head is on the apple and there is room, store the
apple at index `snake_len`, increment `snake_len` and call `GetRandom`. -/
def SnakeGrow (timer : Nat → Nat → Nat) (fuel : Nat) (s : State) : Option State :=
  if (rd s.snake (usub16 s.snake_len 1)).1 = s.apple.1
      ∧ (rd s.snake (usub16 s.snake_len 1)).2 = s.apple.2 then
    if s.snake_len < 64 then
      GetRandom timer fuel 0
        { s with snake := wr s.snake s.snake_len (s.apple.1, s.apple.2)
                 snake_len := (s.snake_len + 1) % 65536 }
    else some s
  else some s

/-- The body of the loop of `collisionCheck` at index `j`. -/
def collisionStep (j : Nat) (st : State) : State :=
  if (rd st.snake j).1 = (rd st.snake (usub16 st.snake_len 1)).1
      ∧ (rd st.snake j).2 = (rd st.snake (usub16 st.snake_len 1)).2 then
    { st with collision := 1 }
  else st

/-- Function `collisionCheck()`: `for (j = 0; j < snake_len - 2; j++)` under `snake_len > 4`. -/
def collisionCheck (s : State) : State :=
  if s.snake_len > 4 then forLoop collisionStep (usub16 s.snake_len 2) 0 s else s

/-- The direction the specification calls the direct reverse of `d`
(Up/Down and Left/Right are the opposite pairs). -/
def specOpposite (d : Char) : Char :=
  if d = 'U' then 'D' else if d = 'D' then 'U' else if d = 'L' then 'R'
  else if d = 'R' then 'L' else d

/-- The input resolver as the specification words it: the first direction in the
order Up, Right, Left, Down that is pressed and is not the reverse of the current
direction; the current direction when there is none. -/
def resolveSpec (up right left down : Bool) (currentDirection : Char) : Char :=
  match [('U', up), ('R', right), ('L', left), ('D', down)].find?
      (fun p => p.2 && p.1 != specOpposite currentDirection) with
  | some p => p.1
  | none => currentDirection

/-- The pair of coordinates `GetRandom` derives from a counter value: `(v >> 3, v & 7)`. -/
def cellOf (v : Nat) : Cell := (v >>> 3, v &&& 0x07)

/-- Function `gameover()`: all rows and columns driven, every LED on. -/
def gameover (s : State) : State :=
  { s with DDROW := 0xFF, DDCOL := 0xFF, ROW := 0xFF, COL := 0x00 }

/-- Function `play()`.  `_delay_ms(speed)` only lets time pass.  `pinc` is the value
of the button port during the call. -/
def play (pinc : Nat) (timer : Nat → Nat → Nat) (fuel : Nat) (junk : List Cell)
    (s : State) : Option State :=
  if s.gameON = 0 then
    if UP_BUTTON pinc ≠ 0 ∨ RIGHT_BUTTON pinc ≠ 0 ∨ LEFT_BUTTON pinc ≠ 0
        ∨ DOWN_BUTTON pinc ≠ 0 then
      some { s with gameON := 1 }
    else some s
  else
    let s1 : State := { s with button := control pinc s }
    let s2 := move s1.button junk s1
    match SnakeGrow timer fuel s2 with
    | none => none
    | some s3 => some (collisionCheck s3)

/-- What one pass of the main loop receives from outside: the button port, the
behaviour of timer 2, a bound on the passes of the placement loop, and the content of
the stack where `move` puts `copysnake`. -/
structure Env where
  pinc : Nat
  timer : Nat → Nat → Nat
  fuel : Nat
  junk : List Cell

/-- The body of `while (1)` in `main`: `if (collision == 0) play(); else gameover();`. -/
def mainIter (e : Env) (s : State) : Option State :=
  if s.collision = 0 then play e.pinc e.timer e.fuel e.junk s else some (gameover s)

/-- Successive passes of the main loop, one for each element of the list. -/
def mainIters : List Env → State → Option State
  | [], s => some s
  | e :: es, s =>
    match mainIter e s with
    | none => none
    | some s1 => mainIters es s1

/-- The part of `setup()` that touches the game state: `TCNT2 = 0` and the first
`GetRandom()`. -/
def setup (timer : Nat → Nat → Nat) (fuel : Nat) (s : State) : Option State :=
  GetRandom timer fuel 0 { s with TCNT2 := 0 }

/-- Function `clearLED()`. -/
def clearLED (s : State) : State := { s with DDROW := 0x00, DDCOL := 0x00 }

/-- The byte an 8-bit port keeps of `1 << x`. -/
def bit8 (x : Nat) : Nat := (1 <<< x) % 256

/-- The byte an 8-bit port keeps of `~(1 << x)`: the complement of the low byte. -/
def notBit8 (x : Nat) : Nat := 255 - (1 <<< x) % 256

/-- The handler `ISR(TIMER0_OVF_vect)`: one display tick.  `snake_counter++` is a
16-bit increment. -/
def TIMER0_OVF (s : State) : State :=
  let s0 := clearLED s
  if s0.gameON = 1 then
    let s1 : State :=
      if s0.snake_counter < s0.snake_len then
        { s0 with DDROW := 0xFF, DDCOL := 0xFF,
                  ROW := bit8 (rd s0.snake s0.snake_counter).1,
                  COL := notBit8 (rd s0.snake s0.snake_counter).2 }
      else if s0.snake_counter = s0.snake_len then
        { s0 with DDROW := 0xFF, DDCOL := 0xFF,
                  ROW := bit8 s0.apple.1,
                  COL := notBit8 s0.apple.2 }
      else s0
    let s2 : State := { s1 with snake_counter := (s1.snake_counter + 1) % 65536 }
    if s2.snake_counter > s2.snake_len then { s2 with snake_counter := 0 } else s2
  else s0

/-- The handler `ISR(ADC_vect)`: `speed = ADCH + 70`, `adch` being the value of the
8-bit register `ADCH`; the sum is stored in a 16-bit `unsigned int`. -/
def ADC_ISR (adch : Nat) (s : State) : State :=
  { s with speed := (adch % 256 + 70) % 65536 }

/-- One operation of the running program: a pass of the main loop, a display tick or
the completion of an analog conversion.  Each is taken as a whole: the two handlers
write the display registers, the cursor and `speed` only, none of which the game
functions read. -/
inductive Step : State → State → Prop
  | main (e : Env) (s s' : State) :
      e.junk.length = 64 → mainIter e s = some s' → Step s s'
  | tick (s : State) : Step s (TIMER0_OVF s)
  | adc (adch : Nat) (s : State) : Step s (ADC_ISR adch s)

/-- The states the program can be in: those `setup` produces from the initial values
of the globals, and those reached from them by any sequence of operations. -/
inductive Reachable : State → Prop
  | boot (timer : Nat → Nat → Nat) (fuel : Nat) (s : State) :
      setup timer fuel initState = some s → Reachable s
  | step (s s' : State) : Reachable s → Step s s' → Reachable s'

/-! ## The array indices the functions use -/

/-- The indices `move(c)` uses, in program order: `copysnake[j]` and `snake[j]` in the
copy loop, `snake[snake_len - 1]` in the `switch`, `snake[j]` and `copysnake[j + 1]` in
the shift loop (which the `default: return` skips). -/
def moveIdx (c : Char) (s : State) : List Nat :=
  forLoop (fun j acc => acc ++ [j, j]) s.snake_len 0 []
  ++ (if c = 'R' ∨ c = 'L' ∨ c = 'U' ∨ c = 'D' then
        [usub16 s.snake_len 1]
        ++ forLoop (fun j acc => acc ++ [j, j + 1]) (usub16 s.snake_len 1) 0 []
      else [])

/-- The indices of `snake` the inner loop of `GetRandom` reads: `j`, `j + 1`, ... up to
the entry where it breaks, or to the end of its `k` iterations. -/
def scanIdx (snake : List Cell) (rand2d : Cell) : Nat → Nat → List Nat
  | 0, _ => []
  | k + 1, j =>
    j :: (if (rd snake j).1 = rand2d.1 ∧ (rd snake j).2 = rand2d.2 then []
          else scanIdx snake rand2d k (j + 1))

/-- The indices of `snake` that `GetRandom` reads during at most `fuel` passes of its
outer loop. -/
def GetRandomIdx (timer : Nat → Nat → Nat) : Nat → Nat → State → List Nat
  | 0, _, _ => []
  | fuel + 1, i, s =>
    let rand := timer i s.TCNT2 % 256
    let rand2d : Cell := (rand >>> 3, rand &&& 0x07)
    scanIdx s.snake rand2d s.snake_len 0
    ++ (if onSnake s.snake rand2d s.snake_len 0 then
          GetRandomIdx timer fuel (i + 1) { s with TCNT2 := (rand + 1) % 256 }
        else [])

/-- The indices of `snake` that `SnakeGrow` uses: the head in the comparison, then
`snake[snake_len]` in the store and the reads of `GetRandom` on the grown snake. -/
def SnakeGrowIdx (timer : Nat → Nat → Nat) (fuel : Nat) (s : State) : List Nat :=
  [usub16 s.snake_len 1]
  ++ (if (rd s.snake (usub16 s.snake_len 1)).1 = s.apple.1
          ∧ (rd s.snake (usub16 s.snake_len 1)).2 = s.apple.2 then
        if s.snake_len < 64 then
          [s.snake_len]
          ++ GetRandomIdx timer fuel 0
              { s with snake := wr s.snake s.snake_len (s.apple.1, s.apple.2)
                       snake_len := (s.snake_len + 1) % 65536 }
        else []
      else [])

/-- The indices of `snake` that `collisionCheck` reads: `snake[j]` and
`snake[snake_len - 1]` for every `j < snake_len - 2`, under `snake_len > 4`. -/
def collisionCheckIdx (s : State) : List Nat :=
  if s.snake_len > 4 then
    forLoop (fun j acc => acc ++ [j, usub16 s.snake_len 1]) (usub16 s.snake_len 2) 0 []
  else []

/-- The index of `snake` that the display tick reads: `snake[snake_counter]` when the
game is started and `snake_counter < snake_len`. -/
def tickIdx (s : State) : List Nat :=
  if s.gameON = 1 then
    if s.snake_counter < s.snake_len then [s.snake_counter] else []
  else []

/-! ## Concrete inputs used below -/

/-- Some content for the uninitialised local array of `move`. -/
def junk0 : List Cell := List.replicate 64 (9, 9)

/-- The snake `[(0,1),(0,2)]` with its head on the apple `(0,2)`. -/
def onAppleState : State :=
  { initState with snake := [(0, 1), (0, 2)] ++ List.replicate 62 (0, 0), apple := (0, 2) }

/-- A snake that fills the array and whose head `snake[63]` is on the apple. -/
def fullState : State :=
  { initState with snake := List.replicate 63 (1, 1) ++ [(5, 5)], snake_len := 64,
                   apple := (5, 5) }

/-- The state `SnakeGrow` reaches from `onAppleState` when the timer reads 0. -/
def grownState : State :=
  { initState with snake := [(0, 1), (0, 2), (0, 2)] ++ List.replicate 61 (0, 0),
                   snake_len := 3, apple := (0, 0) }

/-- A snake of length 2 with its head in the corner `(7,7)`, on the apple; the counter
stands at 63. -/
def cornerState : State :=
  { initState with snake := [(7, 6), (7, 7)] ++ List.replicate 62 (0, 0), apple := (7, 7),
                   TCNT2 := 63 }

/-- A snake of length 5 whose head has come back onto its tail cell `(1,1)`. -/
def loopedState : State :=
  { initState with snake := [(1, 1), (1, 2), (2, 2), (2, 1), (1, 1)] ++ List.replicate 59 (0, 0),
                   snake_len := 5 }

/-- A running game with the snake `[(0,1),(0,2),(0,3)]`, the apple at `(3,4)` and the
display cursor on the second segment. -/
def runningState : State :=
  { initState with snake := [(0, 1), (0, 2), (0, 3)] ++ List.replicate 61 (0, 0),
                   snake_len := 3, apple := (3, 4), gameON := 1, snake_counter := 1 }

/-- The game is over (`collision = 1`, started earlier) with a snake of length 5 and the
display cursor on `snake[0] = (1,1)`. -/
def overState : State :=
  { loopedState with gameON := 1, collision := 1 }

/-- Some inputs for a pass of the main loop: no button active, the timer held. -/
def env0 : Env := { pinc := 0, timer := hold, fuel := 65, junk := junk0 }

/-- Inputs for a pass of the main loop with the Up button active. -/
def envUp : Env := { pinc := 1, timer := hold, fuel := 65, junk := junk0 }

/-- A started game whose collision flag is set. -/
def stoppedState : State := { initState with gameON := 1, collision := 1 }

/-- The snake `[(2,0),(2,1),(2,2),(2,3)]` has its head `(2,3)` on the apple; no other
segment is on that cell. -/
def eatingState : State :=
  { initState with snake := [(2, 0), (2, 1), (2, 2), (2, 3)] ++ List.replicate 60 (0, 0),
                   snake_len := 4, apple := (2, 3), gameON := 1 }

/-- The state after `setup` when the timer is held: the counter values 0 and 1 give the
two cells of the snake, the first apple is `(0,2)`. -/
def bootState : State := { initState with apple := (0, 2), TCNT2 := 2 }

/-- The game just started: the state after `setup` with `gameON = 1`.  The snake is
`[(0,0),(0,1)]`, it moves right and the apple `(0,2)` is straight ahead. -/
def startedState : State := { bootState with gameON := 1 }

/-- Inputs for a pass of the main loop with the Down button active. -/
def envDown : Env := { pinc := 8, timer := hold, fuel := 65, junk := junk0 }

/-! ## Lemmas on the array operations -/

theorem length_wr (a : List Cell) (i : Nat) (v : Cell) : (wr a i v).length = a.length := by
  simp [wr]

theorem rd_wr_same (a : List Cell) (i : Nat) (v : Cell) (h : i < a.length) :
    rd (wr a i v) i = v := by
  simp [rd, wr, List.getD_eq_getElem?_getD, List.getElem?_set, h]

theorem rd_wr_ne (a : List Cell) (i j : Nat) (v : Cell) (h : i ≠ j) :
    rd (wr a i v) j = rd a j := by
  simp [rd, wr, List.getD_eq_getElem?_getD, List.getElem?_set, h]

/-- A loop that stores `f j` at every index `j` of its range: the length is kept. -/
theorem length_forLoop_wr (f : Nat → Cell) (k j : Nat) (a : List Cell) :
    (forLoop (fun j a => wr a j (f j)) k j a).length = a.length := by
  induction k generalizing j a with
  | zero => rfl
  | succ k ih => simp [forLoop, ih, length_wr]

/-- A loop that stores `f j` at every index `j` of its range, read back. -/
theorem rd_forLoop_wr (f : Nat → Cell) (k j : Nat) (a : List Cell) (i : Nat) :
    rd (forLoop (fun j a => wr a j (f j)) k j a) i
      = if j ≤ i ∧ i < j + k ∧ i < a.length then f i else rd a i := by
  induction k generalizing j a with
  | zero =>
    have : ¬ (j ≤ i ∧ i < j + 0 ∧ i < a.length) := by omega
    simp only [forLoop]
    rw [if_neg this]
  | succ k ih =>
    simp only [forLoop]
    rw [ih, length_wr]
    by_cases hij : i = j
    · subst hij
      by_cases hl : i < a.length
      · have h1 : ¬ (i + 1 ≤ i ∧ i < i + 1 + k ∧ i < a.length) := by omega
        have h2 : i ≤ i ∧ i < i + (k + 1) ∧ i < a.length := by omega
        rw [if_neg h1, if_pos h2, rd_wr_same _ _ _ hl]
      · have h1 : ¬ (i + 1 ≤ i ∧ i < i + 1 + k ∧ i < a.length) := by omega
        have h2 : ¬ (i ≤ i ∧ i < i + (k + 1) ∧ i < a.length) := by omega
        rw [if_neg h1, if_neg h2]
        simp [rd, wr, List.set_eq_of_length_le (Nat.le_of_not_lt hl)]
    · rw [rd_wr_ne _ _ _ _ (Ne.symm hij)]
      by_cases hc : j ≤ i ∧ i < j + (k + 1) ∧ i < a.length
      · have h1 : j + 1 ≤ i ∧ i < j + 1 + k ∧ i < a.length := by omega
        rw [if_pos h1, if_pos hc]
      · have h1 : ¬ (j + 1 ≤ i ∧ i < j + 1 + k ∧ i < a.length) := by omega
        rw [if_neg h1, if_neg hc]

/-! ## Movement -/

theorem rd_copyLoop (snake junk : List Cell) (n i : Nat) (hj : junk.length = 64)
    (hn : n ≤ 64) (hi : i < n) : rd (copyLoop snake n junk) i = rd snake i := by
  unfold copyLoop
  rw [rd_forLoop_wr]
  have : 0 ≤ i ∧ i < 0 + n ∧ i < junk.length := by omega
  rw [if_pos this]

theorem rd_shiftLoop (cp sn : List Cell) (n i : Nat) (hs : sn.length = 64)
    (h1 : 1 ≤ n) (hn : n ≤ 64) :
    rd (shiftLoop cp n sn) i = if i < n - 1 then rd cp (i + 1) else rd sn i := by
  unfold shiftLoop
  rw [rd_forLoop_wr]
  have hu : usub16 n 1 = n - 1 := by unfold usub16; omega
  rw [hu]
  by_cases h : i < n - 1
  · have : 0 ≤ i ∧ i < 0 + (n - 1) ∧ i < sn.length := by omega
    rw [if_pos this, if_pos h]
  · have : ¬ (0 ≤ i ∧ i < 0 + (n - 1) ∧ i < sn.length) := by omega
    rw [if_neg this, if_neg h]

theorem length_shiftLoop (cp sn : List Cell) (n : Nat) :
    (shiftLoop cp n sn).length = sn.length := by
  unfold shiftLoop
  exact length_forLoop_wr _ _ _ _

/-- What `move` does for a step function `f` applied to the head. -/
theorem move_of_moveHead (c : Char) (junk : List Cell) (s : State) (f : Cell → Cell)
    (hcap : s.snake.length = 64) (hjunk : junk.length = 64)
    (h2 : 2 ≤ s.snake_len) (h64 : s.snake_len ≤ 64)
    (hm : moveHead c s.snake s.snake_len
      = some (wr s.snake (s.snake_len - 1) (f (rd s.snake (s.snake_len - 1))))) :
    (move c junk s).snake_len = s.snake_len
    ∧ rd (move c junk s).snake (s.snake_len - 1) = f (rd s.snake (s.snake_len - 1))
    ∧ (∀ j, j < s.snake_len - 1 → rd (move c junk s).snake j = rd s.snake (j + 1))
    ∧ (∀ j, s.snake_len ≤ j → rd (move c junk s).snake j = rd s.snake j)
    ∧ (move c junk s).snake.length = 64
    ∧ { move c junk s with snake := s.snake } = s := by
  have hmv : move c junk s = { s with snake := (shiftLoop (copyLoop s.snake s.snake_len junk)
      s.snake_len (wr s.snake (s.snake_len - 1) (f (rd s.snake (s.snake_len - 1))))) } := by
    simp only [move, hm]
  rw [hmv]
  have hl : (wr s.snake (s.snake_len - 1) (f (rd s.snake (s.snake_len - 1)))).length = 64 := by
    rw [length_wr, hcap]
  refine ⟨rfl, ?_, ?_, ?_, ?_, rfl⟩
  · dsimp only
    rw [rd_shiftLoop _ _ _ _ hl (by omega) h64, if_neg (by omega), rd_wr_same _ _ _ (by omega)]
  · intro j hj
    dsimp only
    rw [rd_shiftLoop _ _ _ _ hl (by omega) h64, if_pos hj,
      rd_copyLoop _ _ _ _ hjunk h64 (by omega)]
  · intro j hj
    dsimp only
    rw [rd_shiftLoop _ _ _ _ hl (by omega) h64, if_neg (by omega), rd_wr_ne _ _ _ _ (by omega)]
  · dsimp only
    rw [length_shiftLoop, hl]

/-- The cell `DotGoUp` returns, coordinate by coordinate. -/
theorem DotGoUp_eq (d : Cell) : DotGoUp d = (if 0 < d.1 then d.1 - 1 else 7, d.2) := by
  unfold DotGoUp
  split_ifs <;> rfl

/-- The cell `DotGoDown` returns, coordinate by coordinate. -/
theorem DotGoDown_eq (d : Cell) : DotGoDown d = (if d.1 < 7 then d.1 + 1 else 0, d.2) := by
  unfold DotGoDown
  split_ifs <;> rfl

/-- The cell `DotGoRight` returns, coordinate by coordinate. -/
theorem DotGoRight_eq (d : Cell) : DotGoRight d = (d.1, if d.2 < 7 then d.2 + 1 else 0) := by
  unfold DotGoRight
  split_ifs <;> rfl

/-- The cell `DotGoLeft` returns, coordinate by coordinate. -/
theorem DotGoLeft_eq (d : Cell) : DotGoLeft d = (d.1, if 0 < d.2 then d.2 - 1 else 7) := by
  unfold DotGoLeft
  split_ifs <;> rfl

/-- On the grid `DotGoUp` is the row above on the torus. -/
theorem DotGoUp_grid (d : Cell) (h1 : d.1 ≤ 7) (_h2 : d.2 ≤ 7) :
    DotGoUp d = ((d.1 + 7) % 8, d.2) := by
  rw [DotGoUp_eq]
  congr 1
  split_ifs <;> omega

/-- On the grid `DotGoDown` is the row below on the torus. -/
theorem DotGoDown_grid (d : Cell) (h1 : d.1 ≤ 7) (_h2 : d.2 ≤ 7) :
    DotGoDown d = ((d.1 + 1) % 8, d.2) := by
  rw [DotGoDown_eq]
  congr 1
  split_ifs <;> omega

/-- On the grid `DotGoRight` is the column to the right on the torus. -/
theorem DotGoRight_grid (d : Cell) (_h1 : d.1 ≤ 7) (h2 : d.2 ≤ 7) :
    DotGoRight d = (d.1, (d.2 + 1) % 8) := by
  rw [DotGoRight_eq]
  congr 1
  split_ifs <;> omega

/-- On the grid `DotGoLeft` is the column to the left on the torus. -/
theorem DotGoLeft_grid (d : Cell) (_h1 : d.1 ≤ 7) (h2 : d.2 ≤ 7) :
    DotGoLeft d = (d.1, (d.2 + 7) % 8) := by
  rw [DotGoLeft_eq]
  congr 1
  split_ifs <;> omega

/-- C1: for a state with `2 ≤ snake_len ≤ 64` and a direction `c` among U, R, D, L,
`move c` keeps `snake_len` and puts at index `snake_len - 1` the old head `(r, k)`
displaced by one cell in direction `c`: `(r - 1, k)` for U with 0 going to 7,
`(r, k + 1)` for R with 7 going to 0, `(r + 1, k)` for D with 7 going to 0, `(r, k - 1)`
for L with 0 going to 7; for a head on the grid this is row `(r + 7) mod 8`, column
`(k + 1) mod 8`, row `(r + 1) mod 8`, column `(k + 7) mod 8`.  It puts the pre-move
`snake[j + 1]` at every index `j < snake_len - 1` (the old tail is dropped), whatever
the local copy array held before; entries from `snake_len` on and all other globals
are untouched. -/
theorem move_shifts_body (c : Char) (junk : List Cell) (s : State)
    (hcap : s.snake.length = 64) (hjunk : junk.length = 64)
    (h2 : 2 ≤ s.snake_len) (h64 : s.snake_len ≤ 64)
    (hc : c = 'U' ∨ c = 'R' ∨ c = 'D' ∨ c = 'L') :
    (move c junk s).snake_len = s.snake_len
    ∧ (c = 'U' → rd (move c junk s).snake (s.snake_len - 1)
          = (if 0 < (rd s.snake (s.snake_len - 1)).1
              then (rd s.snake (s.snake_len - 1)).1 - 1 else 7,
             (rd s.snake (s.snake_len - 1)).2))
    ∧ (c = 'R' → rd (move c junk s).snake (s.snake_len - 1)
          = ((rd s.snake (s.snake_len - 1)).1,
             if (rd s.snake (s.snake_len - 1)).2 < 7
              then (rd s.snake (s.snake_len - 1)).2 + 1 else 0))
    ∧ (c = 'D' → rd (move c junk s).snake (s.snake_len - 1)
          = (if (rd s.snake (s.snake_len - 1)).1 < 7
              then (rd s.snake (s.snake_len - 1)).1 + 1 else 0,
             (rd s.snake (s.snake_len - 1)).2))
    ∧ (c = 'L' → rd (move c junk s).snake (s.snake_len - 1)
          = ((rd s.snake (s.snake_len - 1)).1,
             if 0 < (rd s.snake (s.snake_len - 1)).2
              then (rd s.snake (s.snake_len - 1)).2 - 1 else 7))
    ∧ ((rd s.snake (s.snake_len - 1)).1 ≤ 7 → (rd s.snake (s.snake_len - 1)).2 ≤ 7 →
        (c = 'U' → rd (move c junk s).snake (s.snake_len - 1)
            = (((rd s.snake (s.snake_len - 1)).1 + 7) % 8, (rd s.snake (s.snake_len - 1)).2))
        ∧ (c = 'R' → rd (move c junk s).snake (s.snake_len - 1)
            = ((rd s.snake (s.snake_len - 1)).1, ((rd s.snake (s.snake_len - 1)).2 + 1) % 8))
        ∧ (c = 'D' → rd (move c junk s).snake (s.snake_len - 1)
            = (((rd s.snake (s.snake_len - 1)).1 + 1) % 8, (rd s.snake (s.snake_len - 1)).2))
        ∧ (c = 'L' → rd (move c junk s).snake (s.snake_len - 1)
            = ((rd s.snake (s.snake_len - 1)).1, ((rd s.snake (s.snake_len - 1)).2 + 7) % 8)))
    ∧ (∀ j, j < s.snake_len - 1 → rd (move c junk s).snake j = rd s.snake (j + 1))
    ∧ (∀ j, s.snake_len ≤ j → rd (move c junk s).snake j = rd s.snake j)
    ∧ (move c junk s).snake.length = 64
    ∧ { move c junk s with snake := s.snake } = s := by
  have hu : usub16 s.snake_len 1 = s.snake_len - 1 := by unfold usub16; omega
  rcases hc with hc | hc | hc | hc
  · have hm : moveHead c s.snake s.snake_len = some (wr s.snake (s.snake_len - 1)
        (DotGoUp (rd s.snake (s.snake_len - 1)))) := by
      subst hc; simp only [moveHead, hu]
    obtain ⟨a, b, d, e, f, g⟩ := move_of_moveHead c junk s DotGoUp hcap hjunk h2 h64 hm
    subst hc
    refine ⟨a, fun _ => b.trans (DotGoUp_eq _), fun h => absurd h (by decide),
      fun h => absurd h (by decide), fun h => absurd h (by decide), ?_, d, e, f, g⟩
    intro h1 h2
    exact ⟨fun _ => b.trans (DotGoUp_grid _ h1 h2), fun h => absurd h (by decide),
      fun h => absurd h (by decide), fun h => absurd h (by decide)⟩
  · have hm : moveHead c s.snake s.snake_len = some (wr s.snake (s.snake_len - 1)
        (DotGoRight (rd s.snake (s.snake_len - 1)))) := by
      subst hc; simp only [moveHead, hu]
    obtain ⟨a, b, d, e, f, g⟩ := move_of_moveHead c junk s DotGoRight hcap hjunk h2 h64 hm
    subst hc
    refine ⟨a, fun h => absurd h (by decide), fun _ => b.trans (DotGoRight_eq _),
      fun h => absurd h (by decide), fun h => absurd h (by decide), ?_, d, e, f, g⟩
    intro h1 h2
    exact ⟨fun h => absurd h (by decide), fun _ => b.trans (DotGoRight_grid _ h1 h2),
      fun h => absurd h (by decide), fun h => absurd h (by decide)⟩
  · have hm : moveHead c s.snake s.snake_len = some (wr s.snake (s.snake_len - 1)
        (DotGoDown (rd s.snake (s.snake_len - 1)))) := by
      subst hc; simp only [moveHead, hu]
    obtain ⟨a, b, d, e, f, g⟩ := move_of_moveHead c junk s DotGoDown hcap hjunk h2 h64 hm
    subst hc
    refine ⟨a, fun h => absurd h (by decide), fun h => absurd h (by decide),
      fun _ => b.trans (DotGoDown_eq _), fun h => absurd h (by decide), ?_, d, e, f, g⟩
    intro h1 h2
    exact ⟨fun h => absurd h (by decide), fun h => absurd h (by decide),
      fun _ => b.trans (DotGoDown_grid _ h1 h2), fun h => absurd h (by decide)⟩
  · have hm : moveHead c s.snake s.snake_len = some (wr s.snake (s.snake_len - 1)
        (DotGoLeft (rd s.snake (s.snake_len - 1)))) := by
      subst hc; simp only [moveHead, hu]
    obtain ⟨a, b, d, e, f, g⟩ := move_of_moveHead c junk s DotGoLeft hcap hjunk h2 h64 hm
    subst hc
    refine ⟨a, fun h => absurd h (by decide), fun h => absurd h (by decide),
      fun h => absurd h (by decide), fun _ => b.trans (DotGoLeft_eq _), ?_, d, e, f, g⟩
    intro h1 h2
    exact ⟨fun h => absurd h (by decide), fun h => absurd h (by decide),
      fun h => absurd h (by decide), fun _ => b.trans (DotGoLeft_grid _ h1 h2)⟩

/-- C2: movement is toroidal.  For a cell with row and column in `[0,7]`, `DotGoDown`
gives row `(r+1) mod 8`, `DotGoUp` row `(r+7) mod 8`, `DotGoRight` column `(c+1) mod 8`,
`DotGoLeft` column `(c+7) mod 8`, the other coordinate being kept; so row 7 goes down
to row 0, row 0 up to row 7, column 7 right to column 0, column 0 left to column 7. -/
theorem dotGo_toroidal (r c : Nat) (hr : r ≤ 7) (hc : c ≤ 7) :
    DotGoDown (r, c) = ((r + 1) % 8, c)
    ∧ DotGoUp (r, c) = ((r + 7) % 8, c)
    ∧ DotGoRight (r, c) = (r, (c + 1) % 8)
    ∧ DotGoLeft (r, c) = (r, (c + 7) % 8)
    ∧ DotGoDown (7, c) = (0, c)
    ∧ DotGoUp (0, c) = (7, c)
    ∧ DotGoRight (r, 7) = (r, 0)
    ∧ DotGoLeft (r, 0) = (r, 7) := by
  refine ⟨?_, ?_, ?_, ?_, rfl, rfl, rfl, rfl⟩
  · simp only [DotGoDown]
    split <;> (congr 1; omega)
  · simp only [DotGoUp]
    split <;> (congr 1; omega)
  · simp only [DotGoRight]
    split <;> (congr 1; omega)
  · simp only [DotGoLeft]
    split <;> (congr 1; omega)

/-- Witness for C1: the initial snake `[(0,0),(0,1)]` moved right is `[(0,1),(0,2)]`,
and moved up from row 0 its head wraps to row 7. -/
theorem move_shifts_body_witness :
    initState.snake.length = 64 ∧ 2 ≤ initState.snake_len ∧ initState.snake_len ≤ 64
    ∧ (move 'R' junk0 initState).snake_len = 2
    ∧ rd (move 'R' junk0 initState).snake 1 = (0, 2)
    ∧ rd (move 'R' junk0 initState).snake 0 = (0, 1)
    ∧ rd (move 'U' junk0 initState).snake 1 = (7, 1) :=
  have h := move_shifts_body 'R' junk0 initState rfl rfl (by decide) (by decide)
    (Or.inr (Or.inl rfl))
  have hU := move_shifts_body 'U' junk0 initState rfl rfl (by decide) (by decide)
    (Or.inl rfl)
  ⟨rfl, by decide, by decide, h.1, (h.2.2.2.2.2.1 (by decide) (by decide)).2.1 rfl,
    h.2.2.2.2.2.2.1 0 (by decide), (hU.2.2.2.2.2.1 (by decide) (by decide)).1 rfl⟩

/-- Witness for C2 at the corner cell `(7, 0)`. -/
theorem dotGo_toroidal_witness :
    DotGoDown (7, 0) = (0, 0) ∧ DotGoUp (7, 0) = (6, 0)
    ∧ DotGoRight (7, 0) = (7, 1) ∧ DotGoLeft (7, 0) = (7, 7) :=
  have h := dotGo_toroidal 7 0 (by decide) (by decide)
  ⟨h.1, h.2.1, h.2.2.1, h.2.2.2.1⟩

/-! ## Apple placement -/

theorem usub16_one (n : Nat) (h1 : 1 ≤ n) (h2 : n ≤ 65536) : usub16 n 1 = n - 1 := by
  unfold usub16; omega

theorem usub16_two (n : Nat) (h1 : 2 ≤ n) (h2 : n ≤ 65536) : usub16 n 2 = n - 2 := by
  unfold usub16; omega

/-- The scan of `GetRandom` runs to its end exactly when no scanned entry is `cell`. -/
theorem onSnake_eq_false_iff (snake : List Cell) (cell : Cell) (k j : Nat) :
    onSnake snake cell k j = false ↔ ∀ i, j ≤ i → i < j + k → rd snake i ≠ cell := by
  induction k generalizing j with
  | zero =>
    simp only [onSnake, true_iff]
    intro i h1 h2
    omega
  | succ k ih =>
    simp only [onSnake]
    by_cases h : (rd snake j).1 = cell.1 ∧ (rd snake j).2 = cell.2
    · rw [if_pos h]
      constructor
      · intro hf
        cases hf
      · intro hall
        exact absurd (Prod.ext h.1 h.2) (hall j (Nat.le_refl j) (by omega))
    · rw [if_neg h, ih]
      constructor
      · intro hall i h1 h2
        by_cases hij : i = j
        · subst hij
          intro he
          exact h ⟨by rw [he], by rw [he]⟩
        · exact hall i (by omega) (by omega)
      · intro hall i h1 h2
        exact hall i (by omega) (by omega)

theorem onSnake_eq_true_iff (snake : List Cell) (cell : Cell) (k j : Nat) :
    onSnake snake cell k j = true ↔ ∃ i, j ≤ i ∧ i < j + k ∧ rd snake i = cell := by
  constructor
  · intro h
    by_contra hne
    have : onSnake snake cell k j = false := by
      rw [onSnake_eq_false_iff]
      intro i h1 h2 h3
      exact hne ⟨i, h1, h2, h3⟩
    rw [h] at this
    cases this
  · rintro ⟨i, h1, h2, h3⟩
    by_contra hne
    have hf : onSnake snake cell k j = false := by
      cases hb : onSnake snake cell k j
      · rfl
      · exact absurd hb hne
    exact (onSnake_eq_false_iff snake cell k j).1 hf i h1 h2 h3

/-- Whenever `GetRandom` returns, only `apple` and `TCNT2` have changed, the apple is
`cellOf v` for a counter value `v < 256`, and the scan found it on no snake entry. -/
theorem GetRandom_some (timer : Nat → Nat → Nat) (fuel i : Nat) (s s' : State)
    (h : GetRandom timer fuel i s = some s') :
    { s' with apple := s.apple, TCNT2 := s.TCNT2 } = s
    ∧ (∃ v, v < 256 ∧ s'.apple = cellOf v ∧ s'.TCNT2 = v)
    ∧ onSnake s.snake s'.apple s.snake_len 0 = false := by
  induction fuel generalizing i s with
  | zero => simp [GetRandom] at h
  | succ fuel ih =>
    simp only [GetRandom] at h
    split at h
    · obtain ⟨h1, h2, h3⟩ := ih _ _ h
      refine ⟨?_, h2, h3⟩
      cases s
      cases s'
      simp only [State.mk.injEq] at h1 ⊢
      simp [h1]
    · rename_i hscan
      have hs : s' = { s with apple := cellOf (timer i s.TCNT2 % 256),
                              TCNT2 := timer i s.TCNT2 % 256 } := by
        simpa [cellOf] using h.symm
      subst hs
      refine ⟨rfl, ⟨timer i s.TCNT2 % 256, Nat.mod_lt _ (by decide), rfl, rfl⟩, ?_⟩
      simpa [cellOf] using hscan

theorem cellOf_eq (v : Nat) : cellOf v = (v / 8, v % 8) := by
  have h1 : v >>> 3 = v / 8 := by rw [Nat.shiftRight_eq_div_pow]
  have h2 : v &&& 7 = v % 8 := Nat.and_pow_two_sub_one_eq_mod v 3
  simp only [cellOf, h1, h2]

theorem cellOf_injective (a b : Nat) (h : cellOf a = cellOf b) : a = b := by
  rw [cellOf_eq, cellOf_eq] at h
  have h1 : a / 8 = b / 8 := congrArg Prod.fst h
  have h2 : a % 8 = b % 8 := congrArg Prod.snd h
  omega

/-- With the timer held, a run of `GetRandom` that uses up its fuel has found every one
of the successive counter values `TCNT2, TCNT2 + 1, ...` (mod 256) on the snake. -/
theorem GetRandom_hold_none (fuel i : Nat) (s : State)
    (h : GetRandom hold fuel i s = none) :
    ∀ k, k < fuel → onSnake s.snake (cellOf ((s.TCNT2 + k) % 256)) s.snake_len 0 = true := by
  induction fuel generalizing i s with
  | zero => intro k hk; omega
  | succ fuel ih =>
    simp only [GetRandom, hold] at h
    split at h
    · rename_i hscan
      have hrec := ih _ _ h
      intro k hk
      cases k with
      | zero => simpa [cellOf] using hscan
      | succ k =>
        have := hrec k (by omega)
        dsimp only at this
        have he : ((s.TCNT2 % 256 + 1) % 256 + k) % 256 = (s.TCNT2 + (k + 1)) % 256 := by omega
        rw [he] at this
        exact this
    · cases h

/-- At most 64 snake entries cannot cover 65 successive counter values. -/
theorem window_not_all_occupied (snake : List Cell) (n c : Nat) (hn : n ≤ 64) :
    ¬ ∀ k, k < 65 → onSnake snake (cellOf ((c + k) % 256)) n 0 = true := by
  intro hall
  have hsub : (Finset.range 65).image (fun k => cellOf ((c + k) % 256))
      ⊆ (Finset.range n).image (fun j => rd snake j) := by
    intro x hx
    rw [Finset.mem_image] at hx
    obtain ⟨k, hk, rfl⟩ := hx
    obtain ⟨j, _, hj, hj2⟩ := (onSnake_eq_true_iff _ _ _ _).1 (hall k (Finset.mem_range.1 hk))
    rw [Finset.mem_image]
    exact ⟨j, Finset.mem_range.2 (by omega), hj2⟩
  have hinj : Set.InjOn (fun k => cellOf ((c + k) % 256)) (Finset.range 65 : Finset Nat) := by
    intro a ha b hb hab
    have ha2 : a < 65 := Finset.mem_range.1 (Finset.mem_coe.1 ha)
    have hb2 : b < 65 := Finset.mem_range.1 (Finset.mem_coe.1 hb)
    have := cellOf_injective _ _ hab
    omega
  have h1 := Finset.card_le_card hsub
  rw [Finset.card_image_of_injOn hinj, Finset.card_range] at h1
  have h2 : ((Finset.range n).image (fun j => rd snake j)).card ≤ n := by
    have := Finset.card_image_le (s := Finset.range n) (f := fun j => rd snake j)
    rwa [Finset.card_range] at this
  omega

/-- With the timer held, `GetRandom` leaves its loop within 65 passes for every snake of
at most 64 entries. -/
theorem GetRandom_hold_returns (i : Nat) (s : State) (h : s.snake_len ≤ 64) :
    ∃ s', GetRandom hold 65 i s = some s' := by
  cases hg : GetRandom hold 65 i s with
  | some s' => exact ⟨s', rfl⟩
  | none => exact absurd (GetRandom_hold_none 65 i s hg) (window_not_all_occupied _ _ _ h)

/-- The state `SnakeGrow` hands to `GetRandom` when it grows the snake. -/
theorem SnakeGrow_grow (timer : Nat → Nat → Nat) (fuel : Nat) (s : State)
    (h1 : 1 ≤ s.snake_len) (h64 : s.snake_len < 64)
    (hhead : rd s.snake (s.snake_len - 1) = s.apple) :
    SnakeGrow timer fuel s = GetRandom timer fuel 0
      { s with snake := wr s.snake s.snake_len s.apple, snake_len := s.snake_len + 1 } := by
  have hu : usub16 s.snake_len 1 = s.snake_len - 1 := usub16_one _ h1 (by omega)
  have hm : (s.snake_len + 1) % 65536 = s.snake_len + 1 := by omega
  simp only [SnakeGrow, hu, hhead, hm, and_self, if_true, if_pos h64]

/-- The result of `SnakeGrow` is either the unchanged state or comes out of `GetRandom`
run on the snake with the apple stored at index `snake_len`. -/
theorem SnakeGrow_cases (timer : Nat → Nat → Nat) (fuel : Nat) (s s' : State)
    (h : SnakeGrow timer fuel s = some s') :
    s' = s ∨ (s.snake_len < 64 ∧ GetRandom timer fuel 0
      { s with snake := wr s.snake s.snake_len (s.apple.1, s.apple.2),
               snake_len := (s.snake_len + 1) % 65536 } = some s') := by
  unfold SnakeGrow at h
  split at h
  · split at h
    · rename_i hlt
      exact Or.inr ⟨hlt, h⟩
    · exact Or.inl (Option.some.inj h).symm
  · exact Or.inl (Option.some.inj h).symm

/-- C3: in a state with `2 ≤ snake_len < 64` whose head is on the apple, `SnakeGrow`
returns (within 65 passes of the placement loop when the timer is held) and every
result it returns, for any timer behaviour, has `snake_len` increased by exactly 1, the
old apple at the new last index and the entries `0 .. snake_len-1` unchanged.  For
every state with `snake_len ≤ 64` the length after `SnakeGrow` is the old length or
the old length + 1 and is at most 64.  The snake `[(0,1),(0,2)]` with apple `(0,2)`
becomes `[(0,1),(0,2),(0,2)]`. -/
theorem snakeGrow_appends :
    (∀ s : State, s.snake.length = 64 → 2 ≤ s.snake_len → s.snake_len < 64 →
      rd s.snake (s.snake_len - 1) = s.apple →
      (∃ s', SnakeGrow hold 65 s = some s')
      ∧ ∀ (timer : Nat → Nat → Nat) (fuel : Nat) (s' : State),
          SnakeGrow timer fuel s = some s' →
          s'.snake_len = s.snake_len + 1
          ∧ rd s'.snake s.snake_len = s.apple
          ∧ (∀ j, j < s.snake_len → rd s'.snake j = rd s.snake j)
          ∧ s'.snake.length = 64)
    ∧ (∀ (s : State) (timer : Nat → Nat → Nat) (fuel : Nat) (s' : State),
        s.snake_len ≤ 64 → SnakeGrow timer fuel s = some s' →
        (s'.snake_len = s.snake_len ∨ s'.snake_len = s.snake_len + 1) ∧ s'.snake_len ≤ 64)
    ∧ (SnakeGrow hold 65 onAppleState).map (fun t => t.snake.take t.snake_len)
        = some [(0, 1), (0, 2), (0, 2)] := by
  refine ⟨?_, ?_, by decide⟩
  · intro s hcap h2 h64 hhead
    constructor
    · rw [SnakeGrow_grow hold 65 s (by omega) h64 hhead]
      exact GetRandom_hold_returns 0 _ (by dsimp only; omega)
    · intro timer fuel s' hs'
      rw [SnakeGrow_grow timer fuel s (by omega) h64 hhead] at hs'
      obtain ⟨he, _, _⟩ := GetRandom_some _ _ _ _ _ hs'
      have hsn : s'.snake = wr s.snake s.snake_len s.apple := congrArg State.snake he
      have hsl : s'.snake_len = s.snake_len + 1 := congrArg State.snake_len he
      refine ⟨hsl, ?_, ?_, ?_⟩
      · rw [hsn, rd_wr_same _ _ _ (by omega)]
      · intro j hj
        rw [hsn, rd_wr_ne _ _ _ _ (by omega)]
      · rw [hsn, length_wr, hcap]
  · intro s timer fuel s' h64 hs'
    rcases SnakeGrow_cases timer fuel s s' hs' with h | ⟨hlt, hg⟩
    · subst h
      exact ⟨Or.inl rfl, h64⟩
    · obtain ⟨he, _, _⟩ := GetRandom_some _ _ _ _ _ hg
      have hsl : s'.snake_len = (s.snake_len + 1) % 65536 := congrArg State.snake_len he
      constructor
      · right; omega
      · omega

/-- Witness for C3: the snake `[(0,1),(0,2)]` with its head on the
apple `(0,2)` grows to length 3 with `(0,2)` at index 2. -/
theorem snakeGrow_appends_witness :
    onAppleState.snake.length = 64 ∧ 2 ≤ onAppleState.snake_len
    ∧ onAppleState.snake_len < 64
    ∧ rd onAppleState.snake (onAppleState.snake_len - 1) = onAppleState.apple
    ∧ ∃ s', SnakeGrow hold 65 onAppleState = some s' ∧ s'.snake_len = 3
        ∧ rd s'.snake 2 = (0, 2) ∧ rd s'.snake 0 = (0, 1) ∧ rd s'.snake 1 = (0, 2) := by
  have h := snakeGrow_appends.1 onAppleState rfl (by decide) (by decide) rfl
  obtain ⟨s', hs'⟩ := h.1
  obtain ⟨a, b, c, _⟩ := h.2 hold 65 s' hs'
  exact ⟨rfl, by decide, by decide, rfl, s', hs', a, b, c 0 (by decide), c 1 (by decide)⟩

/-- C4: growth at capacity is a silent no-op.  With `snake_len = 64` and the head
`snake[63]` on the apple, `SnakeGrow` returns the state unchanged (snake array,
`snake_len`, apple and everything else), without entering the placement loop. -/
theorem snakeGrow_at_capacity (timer : Nat → Nat → Nat) (fuel : Nat) (s : State)
    (hlen : s.snake_len = 64) (hhead : rd s.snake 63 = s.apple) :
    SnakeGrow timer fuel s = some s := by
  have hu : usub16 64 1 = 63 := rfl
  simp only [SnakeGrow, hlen, hu, hhead, and_self, if_true, Nat.lt_irrefl, if_false]

/-- Witness for C4 on a snake that fills the array. -/
theorem snakeGrow_at_capacity_witness :
    fullState.snake_len = 64 ∧ rd fullState.snake 63 = fullState.apple
    ∧ SnakeGrow hold 0 fullState = some fullState :=
  ⟨rfl, by decide, snakeGrow_at_capacity hold 0 fullState rfl (by decide)⟩

/-- C5: the apple is never placed on an occupied cell.  Whenever `GetRandom` returns,
for any behaviour of the counter, it has left the snake alone and the new apple differs
from `snake[j]` for every `j < snake_len`; and when `SnakeGrow` returns a grown snake,
the new apple differs from every entry of the grown snake, the appended segment (the
old apple) included. -/
theorem apple_never_on_snake (timer : Nat → Nat → Nat) (fuel : Nat) (s s' : State) :
    (GetRandom timer fuel 0 s = some s' →
      s'.snake = s.snake ∧ s'.snake_len = s.snake_len
      ∧ ∀ j, j < s'.snake_len → s'.apple ≠ rd s'.snake j)
    ∧ (s.snake.length = 64 → SnakeGrow timer fuel s = some s' →
        s'.snake_len = s.snake_len + 1 →
        (∀ j, j < s'.snake_len → s'.apple ≠ rd s'.snake j)
        ∧ rd s'.snake s.snake_len = s.apple ∧ s'.apple ≠ s.apple) := by
  have key : ∀ t : State, GetRandom timer fuel 0 t = some s' →
      s'.snake = t.snake ∧ s'.snake_len = t.snake_len
      ∧ ∀ j, j < s'.snake_len → s'.apple ≠ rd s'.snake j := by
    intro t ht
    obtain ⟨he, _, hscan⟩ := GetRandom_some _ _ _ _ _ ht
    have hsn : s'.snake = t.snake := by
      have := congrArg State.snake he
      exact this
    have hsl : s'.snake_len = t.snake_len := by
      have := congrArg State.snake_len he
      exact this
    refine ⟨hsn, hsl, ?_⟩
    intro j hj heq
    rw [onSnake_eq_false_iff] at hscan
    exact hscan j (Nat.zero_le j) (by omega) (by rw [← hsn]; exact heq.symm)
  refine ⟨key s, ?_⟩
  intro hcap hs' hgrow
  rcases SnakeGrow_cases timer fuel s s' hs' with h | ⟨hlt, hg⟩
  · subst h
    omega
  · obtain ⟨hsn, hsl, hall⟩ := key _ hg
    dsimp only at hsn hsl
    have hnew : rd s'.snake s.snake_len = s.apple := by
      rw [hsn, rd_wr_same _ _ _ (by omega)]
    refine ⟨hall, hnew, ?_⟩
    intro he
    exact hall s.snake_len (by omega) (by rw [hnew, he])

/-- Witness for C5: the snake `[(0,1),(0,2)]` that has just eaten
the apple `(0,2)` receives the new apple `(0,0)`, which is on none of its three
entries. -/
theorem apple_never_on_snake_witness :
    onAppleState.snake.length = 64
    ∧ SnakeGrow hold 65 onAppleState = some grownState
    ∧ grownState.snake_len = onAppleState.snake_len + 1
    ∧ grownState.apple ≠ rd grownState.snake 0
    ∧ grownState.apple ≠ rd grownState.snake 1
    ∧ grownState.apple ≠ rd grownState.snake 2 :=
  have h := (apple_never_on_snake hold 65 onAppleState grownState).2 rfl (by decide) rfl
  ⟨rfl, by decide, rfl, h.1 0 (by decide), h.1 1 (by decide), h.1 2 (by decide)⟩

/-- C7 (the code at a failing input): with the head in the corner `(7,7)` and the
counter at 63, `GetRandom` increments the counter to 64 and stores the apple `(8,0)`,
whose row is not in `[0,7]`, both when called directly and when called by `SnakeGrow`
after the snake has eaten the apple at `(7,7)`; the same apple results from reading
the counter value 64 directly. -/
theorem getRandom_apple_outside_grid :
    (GetRandom hold 65 0 cornerState).map (fun t => (t.apple, t.TCNT2)) = some ((8, 0), 64)
    ∧ (SnakeGrow hold 65 cornerState).map (fun t => (t.apple, t.snake_len, t.TCNT2))
        = some ((8, 0), 3, 64)
    ∧ (GetRandom (readings (fun _ => 64)) 65 0 initState).map (fun t => t.apple)
        = some (8, 0) := by
  decide

/-! ## Input -/

/-- C8: the input resolver never returns a direct reversal.  For a current direction
among U, R, D, L and any value of the button port, `control` returns one of U, R, D, L,
and never D when the direction is U, U when it is D, R when it is L, L when it is R. -/
theorem control_never_reverses (pinc : Nat) (s : State)
    (hd : s.button = 'U' ∨ s.button = 'R' ∨ s.button = 'D' ∨ s.button = 'L') :
    (control pinc s = 'U' ∨ control pinc s = 'R' ∨ control pinc s = 'D'
      ∨ control pinc s = 'L')
    ∧ (s.button = 'U' → control pinc s ≠ 'D')
    ∧ (s.button = 'D' → control pinc s ≠ 'U')
    ∧ (s.button = 'L' → control pinc s ≠ 'R')
    ∧ (s.button = 'R' → control pinc s ≠ 'L') := by
  unfold control
  rcases hd with h | h | h | h <;> rw [h] <;> split_ifs <;> simp_all

/-- Witness for C8: moving right with every line of the port
high, `control` answers U (and not L). -/
theorem control_never_reverses_witness :
    initState.button = 'R' ∧ control 255 initState = 'U' ∧ control 255 initState ≠ 'L' :=
  have h := control_never_reverses 255 initState (Or.inr (Or.inl rfl))
  ⟨rfl, by decide, h.2.2.2.2 rfl⟩

/-- C9: for a current direction among U, R, D, L and any value of the button port,
`control` returns what the resolver of the specification returns on the four button
signals: the first of Up, Right, Left, Down whose button is active and which is not
the reverse of the current direction.  When every active button is the reverse of the
current direction (in particular when no button is active) it returns the current
direction.  Every combination of the four signals is produced by some port value. -/
theorem control_first_valid_button (pinc : Nat) (s : State)
    (hd : s.button = 'U' ∨ s.button = 'R' ∨ s.button = 'D' ∨ s.button = 'L') :
    control pinc s
      = resolveSpec (decide (UP_BUTTON pinc ≠ 0)) (decide (RIGHT_BUTTON pinc ≠ 0))
          (decide (LEFT_BUTTON pinc ≠ 0)) (decide (DOWN_BUTTON pinc ≠ 0)) s.button
    ∧ ((UP_BUTTON pinc ≠ 0 → s.button = 'D') → (RIGHT_BUTTON pinc ≠ 0 → s.button = 'L') →
        (LEFT_BUTTON pinc ≠ 0 → s.button = 'R') → (DOWN_BUTTON pinc ≠ 0 → s.button = 'U') →
        control pinc s = s.button)
    ∧ (∀ up right left down : Bool, ∃ p, p < 16
        ∧ (UP_BUTTON p ≠ 0 ↔ up = true) ∧ (RIGHT_BUTTON p ≠ 0 ↔ right = true)
        ∧ (LEFT_BUTTON p ≠ 0 ↔ left = true) ∧ (DOWN_BUTTON p ≠ 0 ↔ down = true)) := by
  refine ⟨?_, ?_, ?_⟩
  rotate_left 2
  · intro up right left down
    refine ⟨(if up then 1 else 0) + (if right then 2 else 0) + (if left then 4 else 0)
      + (if down then 8 else 0), ?_⟩
    cases up <;> cases right <;> cases left <;> cases down <;> decide
  · unfold control resolveSpec
    by_cases hu : UP_BUTTON pinc ≠ 0 <;> by_cases hr : RIGHT_BUTTON pinc ≠ 0 <;>
      by_cases hl : LEFT_BUTTON pinc ≠ 0 <;> by_cases hdn : DOWN_BUTTON pinc ≠ 0 <;>
      rcases hd with h | h | h | h <;>
      simp [hu, hr, hl, hdn, h, specOpposite, List.find?]
  · intro hu hr hl hdn
    unfold control
    rcases hd with h | h | h | h <;> rw [h] at hu hr hl hdn ⊢ <;> split_ifs <;> simp_all

/-- Witness for C9: moving right with Left and Down pressed
(port value 12), Left is the reversal and `control` answers D. -/
theorem control_first_valid_button_witness :
    initState.button = 'R' ∧ control 12 initState = 'D'
    ∧ resolveSpec false false true true 'R' = 'D' :=
  have h := control_first_valid_button 12 initState (Or.inr (Or.inl rfl))
  ⟨rfl, h.1.trans (by decide), by decide⟩

/-! ## Collision -/

/-- Two states that agree once `collision` is overwritten agree for every overwrite. -/
theorem with_collision_congr (a b : State) (c : Nat)
    (h : { a with collision := c } = { b with collision := c }) (d : Nat) :
    { a with collision := d } = { b with collision := d } := by
  cases a
  cases b
  simp only [State.mk.injEq] at h ⊢
  simp [h]

/-- The loop of `collisionCheck`: it changes `collision` only, and `collision` is 1
afterwards exactly when it was 1 before or a scanned entry equals the head. -/
theorem collisionLoop_spec (k j : Nat) (st : State) :
    { forLoop collisionStep k j st with collision := st.collision } = st
    ∧ ((forLoop collisionStep k j st).collision = 1 ↔
        st.collision = 1 ∨ ∃ i, j ≤ i ∧ i < j + k
          ∧ rd st.snake i = rd st.snake (usub16 st.snake_len 1)) := by
  induction k generalizing j st with
  | zero =>
    refine ⟨rfl, ?_⟩
    simp only [forLoop]
    constructor
    · intro h; exact Or.inl h
    · rintro (h | ⟨i, h1, h2, _⟩)
      · exact h
      · omega
  | succ k ih =>
    simp only [forLoop]
    obtain ⟨ih1, ih2⟩ := ih (j + 1) (collisionStep j st)
    by_cases hit : (rd st.snake j).1 = (rd st.snake (usub16 st.snake_len 1)).1
        ∧ (rd st.snake j).2 = (rd st.snake (usub16 st.snake_len 1)).2
    · have hstep : collisionStep j st = { st with collision := 1 } := by
        simp only [collisionStep, if_pos hit]
      rw [hstep] at ih1 ih2 ⊢
      constructor
      · exact with_collision_congr _ _ 1 ih1 st.collision
      · constructor
        · intro _
          exact Or.inr ⟨j, Nat.le_refl j, by omega, Prod.ext hit.1 hit.2⟩
        · intro _
          exact ih2.2 (Or.inl rfl)
    · have hstep : collisionStep j st = st := by
        simp only [collisionStep, if_neg hit]
      rw [hstep] at ih1 ih2 ⊢
      refine ⟨ih1, ih2.trans ?_⟩
      constructor
      · rintro (h | ⟨i, h1, h2, h3⟩)
        · exact Or.inl h
        · exact Or.inr ⟨i, by omega, by omega, h3⟩
      · rintro (h | ⟨i, h1, h2, h3⟩)
        · exact Or.inl h
        · by_cases hij : i = j
          · subst hij
            exact absurd ⟨by rw [h3], by rw [h3]⟩ hit
          · exact Or.inr ⟨i, by omega, by omega, h3⟩

/-- C10: in a state with `2 ≤ snake_len ≤ 64`, `collision` is 1 after `collisionCheck`
exactly when it was 1 before or `snake_len > 4` and some `snake[j]` with
`j < snake_len - 2` equals the head `snake[snake_len - 1]`; nothing but `collision`
changes; and for `snake_len ≤ 4` the state is returned unchanged, whatever the snake
array contains. -/
theorem collisionCheck_spec (s : State) (h2 : 2 ≤ s.snake_len) (h64 : s.snake_len ≤ 64) :
    ((collisionCheck s).collision = 1 ↔
      s.collision = 1 ∨ (s.snake_len > 4 ∧ ∃ j, j < s.snake_len - 2
        ∧ rd s.snake j = rd s.snake (s.snake_len - 1)))
    ∧ { collisionCheck s with collision := s.collision } = s
    ∧ (s.snake_len ≤ 4 → collisionCheck s = s) := by
  have hu1 : usub16 s.snake_len 1 = s.snake_len - 1 := usub16_one _ (by omega) (by omega)
  have hu2 : usub16 s.snake_len 2 = s.snake_len - 2 := usub16_two _ h2 (by omega)
  by_cases hgt : s.snake_len > 4
  · have hcc : collisionCheck s = forLoop collisionStep (s.snake_len - 2) 0 s := by
      simp only [collisionCheck, if_pos hgt, hu2]
    obtain ⟨l1, l2⟩ := collisionLoop_spec (s.snake_len - 2) 0 s
    rw [hcc]
    refine ⟨l2.trans ?_, l1, fun h => by omega⟩
    rw [hu1]
    constructor
    · rintro (h | ⟨i, _, hi, he⟩)
      · exact Or.inl h
      · exact Or.inr ⟨hgt, i, by omega, he⟩
    · rintro (h | ⟨_, i, hi, he⟩)
      · exact Or.inl h
      · exact Or.inr ⟨i, Nat.zero_le i, by omega, he⟩
  · have hcc : collisionCheck s = s := by
      simp only [collisionCheck, if_neg hgt]
    rw [hcc]
    refine ⟨?_, rfl, fun _ => rfl⟩
    constructor
    · intro h; exact Or.inl h
    · rintro (h | ⟨h, _⟩)
      · exact h
      · exact absurd h hgt

/-- Witness for C10: a snake of length 5 whose head is on `snake[0]`
has the collision flag set, and the initial snake of length 2 is left as it is. -/
theorem collisionCheck_spec_witness :
    2 ≤ loopedState.snake_len ∧ loopedState.snake_len ≤ 64
    ∧ loopedState.collision = 0
    ∧ (collisionCheck loopedState).collision = 1
    ∧ collisionCheck initState = initState :=
  have h := collisionCheck_spec loopedState (by decide) (by decide)
  have h0 := collisionCheck_spec initState (by decide) (by decide)
  ⟨by decide, by decide, rfl,
    h.1.2 (Or.inr ⟨by decide, 0, by decide, by decide⟩), h0.2.2 (by decide)⟩

/-! ## Display -/

/-- For a coordinate in `[0,7]` the row byte has exactly the bit `r` set and the column
byte has exactly the bit `r` clear. -/
theorem bit8_one_hot (r : Nat) (hr : r ≤ 7) :
    bit8 r = 1 <<< r ∧ notBit8 r = 255 - 1 <<< r
    ∧ (∀ b, b < 8 → ((bit8 r).testBit b = true ↔ b = r))
    ∧ (∀ b, b < 8 → ((notBit8 r).testBit b = false ↔ b = r)) := by
  interval_cases r <;> refine ⟨by decide, by decide, ?_, ?_⟩ <;> intro b hb <;>
    interval_cases b <;> decide

/-- The display tick when the game has been started, by the position of the cursor. -/
theorem TIMER0_OVF_on (s : State) (hON : s.gameON = 1) :
    TIMER0_OVF s =
      if s.snake_counter < s.snake_len then
        { s with DDROW := 255, DDCOL := 255, ROW := bit8 (rd s.snake s.snake_counter).1,
                 COL := notBit8 (rd s.snake s.snake_counter).2,
                 snake_counter := if (s.snake_counter + 1) % 65536 > s.snake_len then 0
                                  else (s.snake_counter + 1) % 65536 }
      else if s.snake_counter = s.snake_len then
        { s with DDROW := 255, DDCOL := 255, ROW := bit8 s.apple.1,
                 COL := notBit8 s.apple.2,
                 snake_counter := if (s.snake_counter + 1) % 65536 > s.snake_len then 0
                                  else (s.snake_counter + 1) % 65536 }
      else
        { s with DDROW := 0, DDCOL := 0,
                 snake_counter := if (s.snake_counter + 1) % 65536 > s.snake_len then 0
                                  else (s.snake_counter + 1) % 65536 } := by
  simp only [TIMER0_OVF, clearLED, hON, if_true]
  split_ifs <;> rfl

/-- The display tick when the game has not been started. -/
theorem TIMER0_OVF_off (s : State) (hOFF : s.gameON ≠ 1) :
    TIMER0_OVF s = { s with DDROW := 0, DDCOL := 0 } := by
  simp only [TIMER0_OVF, clearLED, hOFF, if_false]

/-- The cursor after a tick of the started game. -/
theorem cursor_after_tick (s : State) (hON : s.gameON = 1) (h64 : s.snake_len ≤ 64)
    (hk : s.snake_counter < 65536) :
    (TIMER0_OVF s).snake_counter
      = if s.snake_counter + 1 ≤ s.snake_len then s.snake_counter + 1 else 0 := by
  have hc : (if (s.snake_counter + 1) % 65536 > s.snake_len then 0
        else (s.snake_counter + 1) % 65536)
      = if s.snake_counter + 1 ≤ s.snake_len then s.snake_counter + 1 else 0 := by
    split_ifs <;> omega
  rw [TIMER0_OVF_on s hON]
  by_cases h1 : s.snake_counter < s.snake_len
  · rw [if_pos h1]
    exact hc
  · rw [if_neg h1]
    by_cases h2 : s.snake_counter = s.snake_len
    · rw [if_pos h2]
      exact hc
    · rw [if_neg h2]
      exact hc

/-- C11: one display tick in the running game (`gameON = 1`).  For a 16-bit cursor `k`,
`snake_len ≤ 64` and all cells in `[0,7]^2`: if `k < snake_len` both drive registers
are `0xFF`, the row byte is `1 << r` and the column byte `~(1 << c)` for
`(r,c) = snake[k]`, with exactly bit `r` of the row high and exactly bit `c` of the
column low; if `k = snake_len` the same holds for the apple; if `k > snake_len` the
drive registers are left cleared and the port bytes untouched.  The cursor becomes
`k + 1` if `k + 1 ≤ snake_len` and 0 otherwise, hence is at most `snake_len`.  The tick
begins by clearing the drive registers, and changes nothing but the display registers
and the cursor. -/
theorem display_tick_renders (s : State) (hON : s.gameON = 1) (h64 : s.snake_len ≤ 64)
    (hk : s.snake_counter < 65536)
    (hgrid : ∀ j, j < s.snake_len → (rd s.snake j).1 ≤ 7 ∧ (rd s.snake j).2 ≤ 7)
    (happle : s.apple.1 ≤ 7 ∧ s.apple.2 ≤ 7) :
    (s.snake_counter < s.snake_len →
      (TIMER0_OVF s).DDROW = 255 ∧ (TIMER0_OVF s).DDCOL = 255
      ∧ (TIMER0_OVF s).ROW = 1 <<< (rd s.snake s.snake_counter).1
      ∧ (TIMER0_OVF s).COL = 255 - 1 <<< (rd s.snake s.snake_counter).2
      ∧ (∀ b, b < 8 →
          ((TIMER0_OVF s).ROW.testBit b = true ↔ b = (rd s.snake s.snake_counter).1))
      ∧ (∀ b, b < 8 →
          ((TIMER0_OVF s).COL.testBit b = false ↔ b = (rd s.snake s.snake_counter).2)))
    ∧ (s.snake_counter = s.snake_len →
      (TIMER0_OVF s).DDROW = 255 ∧ (TIMER0_OVF s).DDCOL = 255
      ∧ (TIMER0_OVF s).ROW = 1 <<< s.apple.1
      ∧ (TIMER0_OVF s).COL = 255 - 1 <<< s.apple.2
      ∧ (∀ b, b < 8 → ((TIMER0_OVF s).ROW.testBit b = true ↔ b = s.apple.1))
      ∧ (∀ b, b < 8 → ((TIMER0_OVF s).COL.testBit b = false ↔ b = s.apple.2)))
    ∧ (s.snake_len < s.snake_counter →
      (TIMER0_OVF s).DDROW = 0 ∧ (TIMER0_OVF s).DDCOL = 0
      ∧ (TIMER0_OVF s).ROW = s.ROW ∧ (TIMER0_OVF s).COL = s.COL)
    ∧ (TIMER0_OVF s).snake_counter
        = (if s.snake_counter + 1 ≤ s.snake_len then s.snake_counter + 1 else 0)
    ∧ (TIMER0_OVF s).snake_counter ≤ s.snake_len
    ∧ TIMER0_OVF s = TIMER0_OVF (clearLED s)
    ∧ { TIMER0_OVF s with DDROW := s.DDROW, DDCOL := s.DDCOL, ROW := s.ROW, COL := s.COL,
                          snake_counter := s.snake_counter } = s := by
  have hcur := cursor_after_tick s hON h64 hk
  have hform := TIMER0_OVF_on s hON
  refine ⟨?_, ?_, ?_, hcur, ?_, ?_, ?_⟩
  · intro h
    rw [if_pos h] at hform
    obtain ⟨hr, hc⟩ := hgrid _ h
    obtain ⟨r1, _, r3, _⟩ := bit8_one_hot _ hr
    obtain ⟨_, c2, _, c4⟩ := bit8_one_hot _ hc
    rw [hform]
    dsimp only
    rw [← r1, ← c2]
    exact ⟨rfl, rfl, rfl, rfl, r3, c4⟩
  · intro h
    rw [if_neg (by omega), if_pos h] at hform
    obtain ⟨r1, _, r3, _⟩ := bit8_one_hot _ happle.1
    obtain ⟨_, c2, _, c4⟩ := bit8_one_hot _ happle.2
    rw [hform]
    dsimp only
    rw [← r1, ← c2]
    exact ⟨rfl, rfl, rfl, rfl, r3, c4⟩
  · intro h
    rw [if_neg (by omega), if_neg (by omega)] at hform
    rw [hform]
    exact ⟨rfl, rfl, rfl, rfl⟩
  · rw [hcur]
    split_ifs <;> omega
  · simp only [TIMER0_OVF, clearLED]
  · rw [hform]
    split_ifs <;> rfl

/-- Witness for C11: with the cursor on the second segment `(0,2)` of a running snake,
the tick drives row byte 1 and column byte `0xFB` and moves the cursor to 2. -/
theorem display_tick_renders_witness :
    runningState.gameON = 1 ∧ runningState.snake_counter < runningState.snake_len
    ∧ (TIMER0_OVF runningState).ROW = 1 ∧ (TIMER0_OVF runningState).COL = 251
    ∧ (TIMER0_OVF runningState).DDROW = 255
    ∧ (TIMER0_OVF runningState).snake_counter = 2 :=
  have h := display_tick_renders runningState rfl (by decide) (by decide)
    (by decide) (by decide)
  have h1 := h.1 (by decide)
  ⟨rfl, by decide, h1.2.2.1, h1.2.2.2.1, h1.1, h.2.2.2.1⟩

/-- C12 (counterexample): in the state `overState` the game is over (`collision = 1`),
yet a display tick drives both registers with `0xFF` and shows the segment `(1,1)`:
row byte 2, column byte `0xFD`. -/
theorem tick_renders_when_over :
    overState.collision = 1
    ∧ (TIMER0_OVF overState).DDROW = 255 ∧ (TIMER0_OVF overState).DDCOL = 255
    ∧ (TIMER0_OVF overState).ROW = 2 ∧ (TIMER0_OVF overState).COL = 253
    ∧ (TIMER0_OVF overState).snake_counter = 1 := by
  decide

/-- C12 (amended): for every state in which the game has not been started
(`gameON` is not 1) a display tick clears the two drive registers and changes nothing
else, so it renders neither a snake cell nor the apple.  The tick does not read
`collision`: with any value of the flag it does what it does in the running game. -/
theorem tick_blank_before_start (s : State) :
    (s.gameON ≠ 1 → TIMER0_OVF s = { s with DDROW := 0, DDCOL := 0 })
    ∧ (∀ c, TIMER0_OVF { s with collision := c } = { TIMER0_OVF s with collision := c }) := by
  refine ⟨TIMER0_OVF_off s, ?_⟩
  intro c
  simp only [TIMER0_OVF, clearLED]
  split_ifs <;> rfl

/-- Witness for C12 (amended): before the start the tick only clears the drive
registers of a display that had been driven. -/
theorem tick_blank_before_start_witness :
    ({ initState with DDROW := 255, DDCOL := 255 } : State).gameON ≠ 1
    ∧ TIMER0_OVF { initState with DDROW := 255, DDCOL := 255 } = initState :=
  ⟨by decide, (tick_blank_before_start { initState with DDROW := 255, DDCOL := 255 }).1
    (by decide)⟩

/-- A display tick changes the display registers and the cursor only. -/
theorem TIMER0_OVF_frame (t : State) (a b c d e : Nat) :
    { TIMER0_OVF t with DDROW := a, DDCOL := b, ROW := c, COL := d, snake_counter := e }
      = { t with DDROW := a, DDCOL := b, ROW := c, COL := d, snake_counter := e } := by
  simp only [TIMER0_OVF, clearLED]
  split_ifs <;> rfl

/-- C17: for an analog sample `adch` in `0..255` the conversion-complete handler sets
`speed` to exactly `adch + 70`, a value between 70 and 325 that the 16-bit variable
holds without wrapping, and changes nothing else. -/
theorem adc_sets_speed (adch : Nat) (s : State) (h : adch ≤ 255) :
    (ADC_ISR adch s).speed = adch + 70
    ∧ 70 ≤ (ADC_ISR adch s).speed ∧ (ADC_ISR adch s).speed ≤ 325
    ∧ (ADC_ISR adch s).speed < 65536
    ∧ { ADC_ISR adch s with speed := s.speed } = s := by
  have hs : (ADC_ISR adch s).speed = adch + 70 := by
    simp only [ADC_ISR]
    omega
  refine ⟨hs, ?_, ?_, ?_, rfl⟩ <;> omega

/-- Witness for C17: the largest sample 255 gives the delay 325. -/
theorem adc_sets_speed_witness :
    (255 : Nat) ≤ 255 ∧ (ADC_ISR 255 initState).speed = 325
    ∧ { ADC_ISR 255 initState with speed := 200 } = initState :=
  have h := adc_sets_speed 255 initState (by decide)
  ⟨by decide, h.1, h.2.2.2.2⟩

/-! ## Frame and length lemmas for the game step -/

/-- The loop of `collisionCheck` leaves the flag as it was or sets it to 1. -/
theorem collisionLoop_flag (k j : Nat) (st : State) :
    (forLoop collisionStep k j st).collision = st.collision
    ∨ (forLoop collisionStep k j st).collision = 1 := by
  induction k generalizing j st with
  | zero => exact Or.inl rfl
  | succ k ih =>
    simp only [forLoop]
    rcases ih (j + 1) (collisionStep j st) with h | h
    · rw [h]
      unfold collisionStep
      split_ifs
      · exact Or.inr rfl
      · exact Or.inl rfl
    · exact Or.inr h

/-- Function `collisionCheck` changes the collision flag only. -/
theorem collisionCheck_frame (s : State) :
    { collisionCheck s with collision := s.collision } = s := by
  unfold collisionCheck
  split_ifs
  · exact (collisionLoop_spec _ 0 s).1
  · rfl

/-- Function `collisionCheck` leaves the flag as it was or sets it to 1. -/
theorem collisionCheck_flag (s : State) :
    (collisionCheck s).collision = s.collision ∨ (collisionCheck s).collision = 1 := by
  unfold collisionCheck
  split_ifs
  · exact collisionLoop_flag _ 0 s
  · exact Or.inl rfl

/-- When `collisionCheck` sets the flag, some entry below index `snake_len - 2` equals
the head. -/
theorem collisionCheck_sets (s : State) (h2 : 2 ≤ s.snake_len) (h64 : s.snake_len ≤ 64)
    (h0 : s.collision ≠ 1) (h1 : (collisionCheck s).collision = 1) :
    ∃ j, j < s.snake_len - 2 ∧ rd s.snake j = rd s.snake (s.snake_len - 1) := by
  unfold collisionCheck at h1
  split_ifs at h1
  · rw [(collisionLoop_spec _ 0 s).2] at h1
    rcases h1 with h1 | ⟨i, _, hi, he⟩
    · exact absurd h1 h0
    · rw [usub16_two _ h2 (by omega)] at hi
      rw [usub16_one _ (by omega) (by omega)] at he
      exact ⟨i, by omega, he⟩
  · exact absurd h1 h0

/-- The `switch` of `move` keeps the length of the array. -/
theorem length_moveHead (c : Char) (snake sn : List Cell) (n : Nat)
    (h : moveHead c snake n = some sn) : sn.length = snake.length := by
  unfold moveHead at h
  split at h <;> first
    | (cases h; exact length_wr _ _ _)
    | cases h

/-- Function `move` keeps `snake_len`, the length of the array and everything but the
array, for every argument. -/
theorem move_frame (c : Char) (junk : List Cell) (s : State) :
    { move c junk s with snake := s.snake } = s
    ∧ (move c junk s).snake.length = s.snake.length := by
  unfold move
  cases hm : moveHead c s.snake s.snake_len with
  | none => exact ⟨rfl, rfl⟩
  | some sn =>
    refine ⟨rfl, ?_⟩
    dsimp only
    rw [length_shiftLoop, length_moveHead _ _ _ _ hm]

/-- What `SnakeGrow` returns: the state itself, or the state with the apple stored at
index `snake_len`, `snake_len` incremented and a new apple and counter value. -/
theorem SnakeGrow_result (timer : Nat → Nat → Nat) (fuel : Nat) (s s' : State)
    (h : SnakeGrow timer fuel s = some s') :
    s' = s
    ∨ (s.snake_len < 64
        ∧ rd s.snake (usub16 s.snake_len 1) = s.apple
        ∧ { s' with apple := s.apple, TCNT2 := s.TCNT2 }
            = { s with snake := wr s.snake s.snake_len s.apple,
                       snake_len := s.snake_len + 1 }) := by
  unfold SnakeGrow at h
  split at h
  · rename_i hhead
    split at h
    · rename_i hlt
      right
      obtain ⟨he, _, _⟩ := GetRandom_some _ _ _ _ _ h
      have hm : (s.snake_len + 1) % 65536 = s.snake_len + 1 := by omega
      refine ⟨hlt, Prod.ext hhead.1 hhead.2, ?_⟩
      rw [hm] at he
      exact he
    · exact Or.inl (Option.some.inj h).symm
  · exact Or.inl (Option.some.inj h).symm

/-- The answer of `control` is a direction whenever the current direction is one. -/
theorem control_valid (pinc : Nat) (s : State)
    (hd : s.button = 'U' ∨ s.button = 'R' ∨ s.button = 'D' ∨ s.button = 'L') :
    control pinc s = 'U' ∨ control pinc s = 'R' ∨ control pinc s = 'D'
      ∨ control pinc s = 'L' := by
  unfold control
  rcases hd with h | h | h | h <;> rw [h] <;> split_ifs <;> simp

/-! ## Main loop -/

/-- C16: the game never starts spontaneously.  With `gameON = 0`, `play` returns, sets
`gameON` to 1 exactly when at least one of the four button signals is active, and
leaves everything else (snake, `snake_len`, apple, direction, collision flag)
unchanged. -/
theorem play_waits_for_button (pinc : Nat) (timer : Nat → Nat → Nat) (fuel : Nat)
    (junk : List Cell) (s : State) (h0 : s.gameON = 0) :
    ∃ s', play pinc timer fuel junk s = some s'
      ∧ (s'.gameON = 1 ↔ (UP_BUTTON pinc ≠ 0 ∨ RIGHT_BUTTON pinc ≠ 0
          ∨ LEFT_BUTTON pinc ≠ 0 ∨ DOWN_BUTTON pinc ≠ 0))
      ∧ { s' with gameON := s.gameON } = s := by
  by_cases hb : UP_BUTTON pinc ≠ 0 ∨ RIGHT_BUTTON pinc ≠ 0 ∨ LEFT_BUTTON pinc ≠ 0
      ∨ DOWN_BUTTON pinc ≠ 0
  · refine ⟨{ s with gameON := 1 }, ?_, ?_, rfl⟩
    · simp only [play, h0, if_true, if_pos hb]
    · exact ⟨fun _ => hb, fun _ => rfl⟩
  · refine ⟨s, ?_, ?_, rfl⟩
    · simp only [play, h0, if_true, if_neg hb]
    · constructor
      · intro h1
        rw [h0] at h1
        cases h1
      · intro h1
        exact absurd h1 hb

/-- Witness for C16: before the start, a pass without a button leaves the initial state
as it is and a pass with the Up button sets `gameON`. -/
theorem play_waits_for_button_witness :
    initState.gameON = 0
    ∧ play 0 hold 65 junk0 initState = some initState
    ∧ ∃ s', play 1 hold 65 junk0 initState = some s' ∧ s'.gameON = 1
        ∧ { s' with gameON := 0 } = initState := by
  obtain ⟨s', h1, hiff, hfr⟩ := play_waits_for_button 1 hold 65 junk0 initState rfl
  exact ⟨rfl, by decide, s', h1, hiff.2 (Or.inl (by decide)), hfr⟩

/-- Once the collision flag is set, any number of passes of the main loop produces the
state itself (no pass) or `gameover` of it. -/
theorem mainIters_over (es : List Env) (s : State) (h : s.collision = 1) :
    mainIters es s = some s ∨ mainIters es s = some (gameover s) := by
  induction es generalizing s with
  | nil => exact Or.inl rfl
  | cons e es ih =>
    have hne : ¬ s.collision = 0 := by omega
    have h1 : mainIter e s = some (gameover s) := by
      simp only [mainIter, if_neg hne]
    have h2 : mainIters (e :: es) s = mainIters es (gameover s) := by
      simp only [mainIters, h1]
    rw [h2]
    rcases ih (gameover s) h with h3 | h3
    · exact Or.inr h3
    · exact Or.inr h3

/-- C15: Over is terminal.  With `collision = 1` one pass of the main loop only calls
`gameover`, which writes the display registers and leaves the snake, `snake_len`, the
apple, the direction, `gameON` and `collision` unchanged; and every sequence of passes
of the main loop ends in a state that differs from the first one in the display
registers at most, so `collision` stays 1 and the snake does not move. -/
theorem over_is_terminal (s : State) (h : s.collision = 1) (e : Env) (es : List Env) :
    mainIter e s = some (gameover s)
    ∧ { gameover s with DDROW := s.DDROW, DDCOL := s.DDCOL, ROW := s.ROW, COL := s.COL } = s
    ∧ ∃ s', mainIters es s = some s'
        ∧ { s' with DDROW := s.DDROW, DDCOL := s.DDCOL, ROW := s.ROW, COL := s.COL } = s
        ∧ s'.collision = 1 ∧ s'.snake = s.snake ∧ s'.snake_len = s.snake_len
        ∧ s'.apple = s.apple ∧ s'.button = s.button ∧ s'.gameON = s.gameON := by
  have hne : ¬ s.collision = 0 := by omega
  refine ⟨?_, rfl, ?_⟩
  · simp only [mainIter, if_neg hne]
  · rcases mainIters_over es s h with h1 | h1
    · exact ⟨s, h1, rfl, h, rfl, rfl, rfl, rfl, rfl⟩
    · exact ⟨gameover s, h1, rfl, h, rfl, rfl, rfl, rfl, rfl⟩

/-- Witness for C15: three passes of the main loop, one of them with a button pressed,
on a state with the collision flag set. -/
theorem over_is_terminal_witness :
    stoppedState.collision = 1
    ∧ mainIter envUp stoppedState = some (gameover stoppedState)
    ∧ ∃ s', mainIters [env0, envUp, env0] stoppedState = some s'
        ∧ s'.collision = 1 ∧ s'.snake = stoppedState.snake ∧ s'.button = 'R' := by
  have h := over_is_terminal stoppedState rfl envUp [env0, envUp, env0]
  obtain ⟨s', h1, _, h3, h4, _, _, h7, _⟩ := h.2.2
  exact ⟨rfl, h.1, s', h1, h3, h4, h7⟩

/-- C20: growth alone never ends the game.  In a state with `2 ≤ snake_len < 64`,
`collision = 0`, the head on the apple and no entry below index `snake_len - 1` equal
to the head, `SnakeGrow` returns (within 65 passes of the placement loop when the timer
is held), and for every result it returns, whatever apple was chosen, the appended
segment coincides with the previous head and `collisionCheck` leaves `collision = 0`. -/
theorem growth_keeps_game_running (s : State) (hcap : s.snake.length = 64)
    (h2 : 2 ≤ s.snake_len) (h64 : s.snake_len < 64) (hcol : s.collision = 0)
    (hhead : rd s.snake (s.snake_len - 1) = s.apple)
    (hfree : ∀ j, j < s.snake_len - 1 → rd s.snake j ≠ rd s.snake (s.snake_len - 1)) :
    (∃ s', SnakeGrow hold 65 s = some s')
    ∧ ∀ (timer : Nat → Nat → Nat) (fuel : Nat) (s' : State),
        SnakeGrow timer fuel s = some s' →
        s'.snake_len = s.snake_len + 1
        ∧ rd s'.snake s.snake_len = rd s'.snake (s.snake_len - 1)
        ∧ (collisionCheck s').collision = 0 := by
  constructor
  · rw [SnakeGrow_grow hold 65 s (by omega) h64 hhead]
    exact GetRandom_hold_returns 0 _ (by dsimp only; omega)
  · intro timer fuel s' hs'
    rw [SnakeGrow_grow timer fuel s (by omega) h64 hhead] at hs'
    obtain ⟨he, _, _⟩ := GetRandom_some _ _ _ _ _ hs'
    have hsn : s'.snake = wr s.snake s.snake_len s.apple := congrArg State.snake he
    have hsl : s'.snake_len = s.snake_len + 1 := congrArg State.snake_len he
    have hsc : s'.collision = 0 := by
      have := congrArg State.collision he
      exact this.trans hcol
    have hnew : rd s'.snake s.snake_len = s.apple := by
      rw [hsn, rd_wr_same _ _ _ (by omega)]
    have hold_ : ∀ j, j < s.snake_len → rd s'.snake j = rd s.snake j := by
      intro j hj
      rw [hsn, rd_wr_ne _ _ _ _ (by omega)]
    refine ⟨hsl, ?_, ?_⟩
    · rw [hnew, hold_ _ (by omega), hhead]
    · rcases collisionCheck_flag s' with h | h
      · rw [h, hsc]
      · exfalso
        obtain ⟨j, hj, hje⟩ := collisionCheck_sets s' (by omega) (by omega) (by omega) h
        rw [hsl] at hj hje
        have e1 : s.snake_len + 1 - 1 = s.snake_len := by omega
        rw [e1, hnew, hold_ j (by omega), ← hhead] at hje
        exact hfree j (by omega) hje

/-- Witness for C20: the snake `[(2,0),(2,1),(2,2),(2,3)]` eats the apple at its head
`(2,3)`; the collision check then scans a snake of length 5 and the flag stays 0. -/
theorem growth_keeps_game_running_witness :
    eatingState.snake.length = 64 ∧ eatingState.collision = 0
    ∧ rd eatingState.snake 3 = eatingState.apple
    ∧ ∃ s', SnakeGrow hold 65 eatingState = some s' ∧ s'.snake_len = 5
        ∧ (collisionCheck s').collision = 0 := by
  have h := growth_keeps_game_running eatingState rfl (by decide) (by decide) rfl rfl
    (by decide)
  obtain ⟨s', hs'⟩ := h.1
  obtain ⟨a, _, c⟩ := h.2 hold 65 s' hs'
  exact ⟨rfl, rfl, rfl, s', hs', a, c⟩

/-! ## Reachable states -/

/-- A pass of `play` keeps the length of the array and keeps `snake_len` or, below the
capacity, increments it. -/
theorem play_snake_len (pinc : Nat) (timer : Nat → Nat → Nat) (fuel : Nat)
    (junk : List Cell) (s s' : State) (h : play pinc timer fuel junk s = some s') :
    (s'.snake_len = s.snake_len ∨ (s.snake_len < 64 ∧ s'.snake_len = s.snake_len + 1))
    ∧ s'.snake.length = s.snake.length := by
  unfold play at h
  split_ifs at h
  · cases h
    exact ⟨Or.inl rfl, rfl⟩
  · cases h
    exact ⟨Or.inl rfl, rfl⟩
  · dsimp only at h
    obtain ⟨mf, ml⟩ := move_frame (control pinc s) junk { s with button := control pinc s }
    have m1 : (move (control pinc s) junk { s with button := control pinc s }).snake_len
        = s.snake_len := by
      have := congrArg State.snake_len mf
      exact this
    dsimp only at ml
    cases hg : SnakeGrow timer fuel
        (move (control pinc s) junk { s with button := control pinc s }) with
    | none =>
      rw [hg] at h
      cases h
    | some s3 =>
      rw [hg] at h
      cases h
      have cf := collisionCheck_frame s3
      have c1 : (collisionCheck s3).snake_len = s3.snake_len := by
        have := congrArg State.snake_len cf
        exact this
      have c2 : (collisionCheck s3).snake = s3.snake := by
        have := congrArg State.snake cf
        exact this
      rw [c1, c2]
      rcases SnakeGrow_result _ _ _ _ hg with h3 | ⟨hlt, _, h3⟩
      · rw [h3]
        exact ⟨Or.inl m1, ml⟩
      · have g1 : s3.snake_len = (move (control pinc s) junk
            { s with button := control pinc s }).snake_len + 1 := by
          have := congrArg State.snake_len h3
          exact this
        have g2 : s3.snake = wr (move (control pinc s) junk
            { s with button := control pinc s }).snake (move (control pinc s) junk
            { s with button := control pinc s }).snake_len (move (control pinc s) junk
            { s with button := control pinc s }).apple := by
          have := congrArg State.snake h3
          exact this
        rw [g1, g2, length_wr, m1, ml]
        rw [m1] at hlt
        exact ⟨Or.inr ⟨hlt, rfl⟩, rfl⟩

/-- Every operation keeps the length of the array and keeps `snake_len` or, below the
capacity, increments it. -/
theorem step_snake_len (s s' : State) (h : Step s s') :
    (s'.snake_len = s.snake_len ∨ (s.snake_len < 64 ∧ s'.snake_len = s.snake_len + 1))
    ∧ s'.snake.length = s.snake.length := by
  cases h with
  | main e s s' _ hm =>
    unfold mainIter at hm
    split_ifs at hm
    · exact play_snake_len _ _ _ _ _ _ hm
    · cases hm
      exact ⟨Or.inl rfl, rfl⟩
  | tick =>
    have f := TIMER0_OVF_frame s 0 0 0 0 0
    have sn := congrArg State.snake f
    have sl := congrArg State.snake_len f
    exact ⟨Or.inl sl, congrArg List.length sn⟩
  | adc adch => exact ⟨Or.inl rfl, rfl⟩

/-- C14: in every state reachable from the initial state by `setup` followed by any
sequence of main-loop passes and interrupt handler runs, the array has its 64 entries
and `2 ≤ snake_len ≤ 64`; and every such operation, in any state, leaves `snake_len`
as it is or increases it by exactly one, never decreasing it. -/
theorem snake_len_invariant :
    (∀ s, Reachable s → s.snake.length = 64 ∧ 2 ≤ s.snake_len ∧ s.snake_len ≤ 64)
    ∧ (∀ s s', Step s s' →
        s'.snake_len = s.snake_len ∨ s'.snake_len = s.snake_len + 1) := by
  constructor
  · intro s hr
    induction hr with
    | boot timer fuel s hs =>
      unfold setup at hs
      obtain ⟨he, _, _⟩ := GetRandom_some _ _ _ _ _ hs
      have sn : s.snake = initState.snake := by
        have := congrArg State.snake he
        exact this
      have sl : s.snake_len = initState.snake_len := by
        have := congrArg State.snake_len he
        exact this
      rw [sn, sl]
      exact ⟨rfl, by decide, by decide⟩
    | step s s' _ hst ih =>
      obtain ⟨h1, h2⟩ := step_snake_len s s' hst
      obtain ⟨i1, i2, i3⟩ := ih
      refine ⟨h2.trans i1, ?_, ?_⟩
      · rcases h1 with h | ⟨_, h⟩ <;> omega
      · rcases h1 with h | ⟨_, h⟩ <;> omega
  · intro s s' hst
    rcases (step_snake_len s s' hst).1 with h | ⟨_, h⟩
    · exact Or.inl h
    · exact Or.inr h

/-- Witness for C14: the state after `setup` and one display tick is reachable and has
`snake_len = 2`; the state after `setup`, a pass that starts the game and a pass in
which the snake eats the first apple is reachable and has `snake_len = 3`. -/
theorem snake_len_invariant_witness :
    Reachable (TIMER0_OVF bootState) ∧ (TIMER0_OVF bootState).snake_len = 2
    ∧ (TIMER0_OVF bootState).snake.length = 64
    ∧ ∃ s3, Reachable s3 ∧ s3.snake_len = 3 ∧ 2 ≤ s3.snake_len ∧ s3.snake_len ≤ 64 :=
  have hb : Reachable bootState := Reachable.boot hold 65 bootState (by decide)
  have hr : Reachable (TIMER0_OVF bootState) :=
    Reachable.step bootState _ hb (Step.tick bootState)
  have h := snake_len_invariant.1 (TIMER0_OVF bootState) hr
  have hs : Reachable startedState :=
    Reachable.step bootState _ hb (Step.main envUp bootState startedState rfl (by decide))
  have hg : Reachable { startedState with
      snake := [(0, 1), (0, 2), (0, 2)] ++ List.replicate 61 (0, 0),
      snake_len := 3, apple := (0, 3), TCNT2 := 3 } :=
    Reachable.step startedState _ hs (Step.main env0 startedState _ rfl (by decide))
  have h3 := snake_len_invariant.1 _ hg
  ⟨hr, Nat.le_antisymm (by decide) h.2.1, h.1, _, hg, rfl, h3.2.1, h3.2.2⟩

/-! ## The duplicate segment made by growth -/

/-- For a direction `c`, `move` puts the old `snake[j + 1]` at every index
`j < snake_len - 1` and keeps the length of the array. -/
theorem move_body (c : Char) (junk : List Cell) (s : State)
    (hcap : s.snake.length = 64) (hjunk : junk.length = 64)
    (h2 : 2 ≤ s.snake_len) (h64 : s.snake_len ≤ 64)
    (hc : c = 'U' ∨ c = 'R' ∨ c = 'D' ∨ c = 'L') :
    (∀ j, j < s.snake_len - 1 → rd (move c junk s).snake j = rd s.snake (j + 1))
    ∧ (move c junk s).snake.length = 64 := by
  have hu : usub16 s.snake_len 1 = s.snake_len - 1 := usub16_one _ (by omega) (by omega)
  rcases hc with hc | hc | hc | hc
  · have hm : moveHead c s.snake s.snake_len = some (wr s.snake (s.snake_len - 1)
        (DotGoUp (rd s.snake (s.snake_len - 1)))) := by
      subst hc; simp only [moveHead, hu]
    obtain ⟨_, _, d, _, f, _⟩ := move_of_moveHead c junk s DotGoUp hcap hjunk h2 h64 hm
    exact ⟨d, f⟩
  · have hm : moveHead c s.snake s.snake_len = some (wr s.snake (s.snake_len - 1)
        (DotGoRight (rd s.snake (s.snake_len - 1)))) := by
      subst hc; simp only [moveHead, hu]
    obtain ⟨_, _, d, _, f, _⟩ := move_of_moveHead c junk s DotGoRight hcap hjunk h2 h64 hm
    exact ⟨d, f⟩
  · have hm : moveHead c s.snake s.snake_len = some (wr s.snake (s.snake_len - 1)
        (DotGoDown (rd s.snake (s.snake_len - 1)))) := by
      subst hc; simp only [moveHead, hu]
    obtain ⟨_, _, d, _, f, _⟩ := move_of_moveHead c junk s DotGoDown hcap hjunk h2 h64 hm
    exact ⟨d, f⟩
  · have hm : moveHead c s.snake s.snake_len = some (wr s.snake (s.snake_len - 1)
        (DotGoLeft (rd s.snake (s.snake_len - 1)))) := by
      subst hc; simp only [moveHead, hu]
    obtain ⟨_, _, d, _, f, _⟩ := move_of_moveHead c junk s DotGoLeft hcap hjunk h2 h64 hm
    exact ⟨d, f⟩

/-- A game step (`play` in a started game) on a snake of length `n`: the body is
shifted, and either the length is kept, or the length is `n + 1` and the entries
`n - 1` and `n` are equal. -/
theorem play_started (pinc : Nat) (timer : Nat → Nat → Nat) (fuel : Nat)
    (junk : List Cell) (s s' : State)
    (hcap : s.snake.length = 64) (hjunk : junk.length = 64)
    (h2 : 2 ≤ s.snake_len) (h64 : s.snake_len ≤ 64) (hON : s.gameON ≠ 0)
    (hd : s.button = 'U' ∨ s.button = 'R' ∨ s.button = 'D' ∨ s.button = 'L')
    (h : play pinc timer fuel junk s = some s') :
    s'.gameON = s.gameON
    ∧ (s'.button = 'U' ∨ s'.button = 'R' ∨ s'.button = 'D' ∨ s'.button = 'L')
    ∧ s'.snake.length = 64
    ∧ (∀ j, j < s.snake_len - 1 → rd s'.snake j = rd s.snake (j + 1))
    ∧ (s'.snake_len = s.snake_len
        ∨ (s.snake_len < 64 ∧ s'.snake_len = s.snake_len + 1
            ∧ rd s'.snake s.snake_len = rd s'.snake (s.snake_len - 1))) := by
  unfold play at h
  rw [if_neg hON] at h
  dsimp only at h
  have hv := control_valid pinc s hd
  obtain ⟨mb, ml⟩ := move_body (control pinc s) junk { s with button := control pinc s }
    hcap hjunk h2 h64 hv
  obtain ⟨mf, _⟩ := move_frame (control pinc s) junk { s with button := control pinc s }
  generalize move (control pinc s) junk { s with button := control pinc s } = m at h mb ml mf
  dsimp only at mb
  have m1 : m.snake_len = s.snake_len := by
    have := congrArg State.snake_len mf
    exact this
  have m2 : m.gameON = s.gameON := by
    have := congrArg State.gameON mf
    exact this
  have m3 : m.button = control pinc s := by
    have := congrArg State.button mf
    exact this
  cases hg : SnakeGrow timer fuel m with
  | none =>
    rw [hg] at h
    cases h
  | some s3 =>
    rw [hg] at h
    cases h
    have cf := collisionCheck_frame s3
    have c1 : (collisionCheck s3).snake_len = s3.snake_len := by
      have := congrArg State.snake_len cf
      exact this
    have c2 : (collisionCheck s3).snake = s3.snake := by
      have := congrArg State.snake cf
      exact this
    have c3 : (collisionCheck s3).gameON = s3.gameON := by
      have := congrArg State.gameON cf
      exact this
    have c4 : (collisionCheck s3).button = s3.button := by
      have := congrArg State.button cf
      exact this
    rw [c1, c2, c3, c4]
    rcases SnakeGrow_result _ _ _ _ hg with h3 | ⟨hlt, hhead, h3⟩
    · rw [h3, m2, m3, m1]
      exact ⟨rfl, hv, ml, mb, Or.inl rfl⟩
    · have g1 : s3.snake_len = m.snake_len + 1 := by
        have := congrArg State.snake_len h3
        exact this
      have g2 : s3.snake = wr m.snake m.snake_len m.apple := by
        have := congrArg State.snake h3
        exact this
      have g3 : s3.gameON = m.gameON := by
        have := congrArg State.gameON h3
        exact this
      have g4 : s3.button = m.button := by
        have := congrArg State.button h3
        exact this
      rw [usub16_one _ (by omega) (by omega)] at hhead
      rw [g1, g2, g3, g4, m1, m2, m3, length_wr] at *
      refine ⟨rfl, hv, ml, ?_, Or.inr ⟨hlt, rfl, ?_⟩⟩
      · intro j hj
        rw [rd_wr_ne _ _ _ _ (by omega)]
        exact mb j hj
      · rw [rd_wr_same _ _ _ (by omega), rd_wr_ne _ _ _ _ (by omega), hhead]

/-- C13 (counterexample): the game starts with the pairwise distinct cells
`[(0,0),(0,1)]`; the first game step, to the right, eats the apple `(0,2)` and gives
`[(0,1),(0,2),(0,2)]`; the next game step, downwards, does not grow and gives
`[(0,2),(0,2),(1,2)]`, whose cells are not pairwise distinct. -/
theorem duplicate_outlives_next_step :
    (startedState.snake.take startedState.snake_len).Nodup
    ∧ (play 0 hold 65 junk0 startedState).map (fun t => (t.snake.take t.snake_len, t.collision))
        = some ([(0, 1), (0, 2), (0, 2)], 0)
    ∧ ((play 0 hold 65 junk0 startedState).bind (play 8 hold 65 junk0)).map
          (fun t => (t.snake.take t.snake_len, t.collision))
        = some ([(0, 2), (0, 2), (1, 2)], 0)
    ∧ ¬ ([(0, 2), (0, 2), (1, 2)] : List Cell).Nodup := by
  decide

/-- C13 (amended): the duplicate made by growth is not removed by the next game step.
When a game step grows a snake of length `n`, the entries `n - 1` and `n` of the new
snake are equal; after the next game step, in a valid direction and without growth,
the entries `n - 2` and `n - 1` both hold that cell: the equal pair has moved one index
towards the tail, as every entry does in a step without growth. -/
theorem duplicate_moves_toward_tail (e1 e2 : Env) (s s1 s2 : State)
    (hcap : s.snake.length = 64) (hj1 : e1.junk.length = 64) (hj2 : e2.junk.length = 64)
    (h2 : 2 ≤ s.snake_len) (h64 : s.snake_len < 64) (hON : s.gameON ≠ 0)
    (hd : s.button = 'U' ∨ s.button = 'R' ∨ s.button = 'D' ∨ s.button = 'L')
    (hp1 : play e1.pinc e1.timer e1.fuel e1.junk s = some s1)
    (hgrow : s1.snake_len = s.snake_len + 1)
    (hp2 : play e2.pinc e2.timer e2.fuel e2.junk s1 = some s2)
    (hkeep : s2.snake_len = s1.snake_len) :
    rd s1.snake s.snake_len = rd s1.snake (s.snake_len - 1)
    ∧ rd s2.snake (s.snake_len - 1) = rd s1.snake s.snake_len
    ∧ rd s2.snake (s.snake_len - 2) = rd s1.snake s.snake_len
    ∧ (∀ j, j < s1.snake_len - 1 → rd s2.snake j = rd s1.snake (j + 1)) := by
  obtain ⟨a1, a2, a3, _, a5⟩ := play_started _ _ _ _ s s1 hcap hj1 h2 (by omega) hON hd hp1
  have hdup : rd s1.snake s.snake_len = rd s1.snake (s.snake_len - 1) := by
    rcases a5 with h | ⟨_, _, h⟩
    · omega
    · exact h
  obtain ⟨_, _, _, b4, _⟩ := play_started _ _ _ _ s1 s2 a3 hj2 (by omega) (by omega)
    (by rw [a1]; exact hON) a2 hp2
  refine ⟨hdup, ?_, ?_, b4⟩
  · have := b4 (s.snake_len - 1) (by omega)
    rw [this]
    congr 1
    omega
  · have := b4 (s.snake_len - 2) (by omega)
    rw [this, hdup]
    congr 1
    omega

/-- Witness for C13 (amended): in the game just started, the step to the right grows the
snake to `[(0,1),(0,2),(0,2)]` and the step downwards leaves `(0,2)` at the indices 0
and 1. -/
theorem duplicate_moves_toward_tail_witness :
    ∃ s1 s2, play 0 hold 65 junk0 startedState = some s1 ∧ s1.snake_len = 3
      ∧ play 8 hold 65 junk0 s1 = some s2 ∧ s2.snake_len = 3
      ∧ rd s2.snake 1 = rd s1.snake 2 ∧ rd s2.snake 0 = rd s1.snake 2
      ∧ rd s1.snake 2 = (0, 2) := by
  refine ⟨{ startedState with snake := [(0, 1), (0, 2), (0, 2)] ++ List.replicate 61 (0, 0),
                              snake_len := 3, apple := (0, 3), TCNT2 := 3 },
    { startedState with snake := [(0, 2), (0, 2), (1, 2)] ++ List.replicate 61 (0, 0),
                        snake_len := 3, apple := (0, 3), TCNT2 := 3, button := 'D' },
    by decide, rfl, by decide, rfl, ?_⟩
  have h := duplicate_moves_toward_tail env0 envDown startedState _ _ rfl rfl rfl
    (by decide) (by decide) (by decide) (Or.inr (Or.inl rfl))
    (by decide : play env0.pinc env0.timer env0.fuel env0.junk startedState = some
      { startedState with snake := [(0, 1), (0, 2), (0, 2)] ++ List.replicate 61 (0, 0),
                          snake_len := 3, apple := (0, 3), TCNT2 := 3 })
    rfl
    (by decide : play envDown.pinc envDown.timer envDown.fuel envDown.junk _ = some
      { startedState with snake := [(0, 2), (0, 2), (1, 2)] ++ List.replicate 61 (0, 0),
                          snake_len := 3, apple := (0, 3), TCNT2 := 3, button := 'D' })
    rfl
  exact ⟨h.2.1, h.2.2.1, rfl⟩

/-! ## Array bounds -/

/-- The elements of a list built by a loop that appends `f j` in pass `j`. -/
theorem mem_forLoop_append (f : Nat → List Nat) (k j : Nat) (acc : List Nat) (x : Nat) :
    x ∈ forLoop (fun j acc => acc ++ f j) k j acc
      ↔ x ∈ acc ∨ ∃ i, j ≤ i ∧ i < j + k ∧ x ∈ f i := by
  induction k generalizing j acc with
  | zero =>
    simp only [forLoop]
    constructor
    · intro h; exact Or.inl h
    · rintro (h | ⟨i, h1, h2, _⟩)
      · exact h
      · omega
  | succ k ih =>
    simp only [forLoop]
    rw [ih, List.mem_append]
    constructor
    · rintro ((h | h) | ⟨i, h1, h2, h3⟩)
      · exact Or.inl h
      · exact Or.inr ⟨j, Nat.le_refl j, by omega, h⟩
      · exact Or.inr ⟨i, by omega, by omega, h3⟩
    · rintro (h | ⟨i, h1, h2, h3⟩)
      · exact Or.inl (Or.inl h)
      · by_cases hij : i = j
        · subst hij
          exact Or.inl (Or.inr h3)
        · exact Or.inr ⟨i, by omega, by omega, h3⟩

/-- The scan of `GetRandom` reads inside its range. -/
theorem mem_scanIdx (snake : List Cell) (cell : Cell) (k j x : Nat)
    (h : x ∈ scanIdx snake cell k j) : j ≤ x ∧ x < j + k := by
  induction k generalizing j with
  | zero => simp [scanIdx] at h
  | succ k ih =>
    simp only [scanIdx, List.mem_cons] at h
    rcases h with h | h
    · omega
    · split_ifs at h
      · simp at h
      · have := ih _ h
        omega

/-- Function `GetRandom` reads below index `snake_len` only. -/
theorem mem_GetRandomIdx (timer : Nat → Nat → Nat) (fuel i : Nat) (s : State) (x : Nat)
    (h : x ∈ GetRandomIdx timer fuel i s) : x < s.snake_len := by
  induction fuel generalizing i s with
  | zero => simp [GetRandomIdx] at h
  | succ fuel ih =>
    simp only [GetRandomIdx, List.mem_append] at h
    rcases h with h | h
    · have := mem_scanIdx _ _ _ _ _ h
      omega
    · split_ifs at h
      · have := ih _ _ h
        exact this
      · simp at h

/-- C19: no array access is out of bounds.  In a state with `2 ≤ snake_len ≤ 64`, for
any value of the display cursor, every index at which `move`, `SnakeGrow`,
`collisionCheck`, `GetRandom` and the display tick read or write `snake` or
`copysnake` is below 64, and the 16-bit subtractions `snake_len - 1` and
`snake_len - 2` do not wrap. -/
theorem accesses_in_bounds (s : State) (h2 : 2 ≤ s.snake_len) (h64 : s.snake_len ≤ 64) :
    (∀ c, ∀ i ∈ moveIdx c s, i < 64)
    ∧ (∀ (timer : Nat → Nat → Nat) (fuel : Nat), ∀ i ∈ SnakeGrowIdx timer fuel s, i < 64)
    ∧ (∀ i ∈ collisionCheckIdx s, i < 64)
    ∧ (∀ (timer : Nat → Nat → Nat) (fuel k : Nat), ∀ i ∈ GetRandomIdx timer fuel k s, i < 64)
    ∧ (∀ i ∈ tickIdx s, i < 64)
    ∧ usub16 s.snake_len 1 + 1 = s.snake_len
    ∧ usub16 s.snake_len 2 + 2 = s.snake_len := by
  have hu1 : usub16 s.snake_len 1 = s.snake_len - 1 := usub16_one _ (by omega) (by omega)
  have hu2 : usub16 s.snake_len 2 = s.snake_len - 2 := usub16_two _ h2 (by omega)
  refine ⟨?_, ?_, ?_, ?_, ?_, by omega, by omega⟩
  · intro c i hi
    simp only [moveIdx, List.mem_append, mem_forLoop_append, hu1] at hi
    rcases hi with (h | ⟨j, _, hj, hm⟩) | hi
    · simp at h
    · simp only [List.mem_cons, List.mem_singleton, List.not_mem_nil, or_false, or_self] at hm
      omega
    · split_ifs at hi
      · simp only [List.mem_append, List.mem_singleton, mem_forLoop_append] at hi
        rcases hi with h | h | ⟨j, _, hj, hm⟩
        · omega
        · simp at h
        · simp only [List.mem_cons, List.mem_singleton, List.not_mem_nil, or_false] at hm
          omega
      · simp at hi
  · intro timer fuel i hi
    simp only [SnakeGrowIdx, List.mem_append, List.mem_singleton, hu1] at hi
    rcases hi with h | hi
    · omega
    · split_ifs at hi
      · simp only [List.mem_append, List.mem_singleton] at hi
        rcases hi with h | h
        · omega
        · have := mem_GetRandomIdx _ _ _ _ _ h
          dsimp only at this
          omega
      · simp at hi
      · simp at hi
  · intro i hi
    unfold collisionCheckIdx at hi
    split_ifs at hi
    · simp only [mem_forLoop_append, hu1, hu2] at hi
      rcases hi with h | ⟨j, _, hj, hm⟩
      · simp at h
      · simp only [List.mem_cons, List.mem_singleton, List.not_mem_nil, or_false] at hm
        omega
    · simp at hi
  · intro timer fuel k i hi
    have := mem_GetRandomIdx _ _ _ _ _ hi
    omega
  · intro i hi
    unfold tickIdx at hi
    split_ifs at hi
    · simp only [List.mem_singleton] at hi
      omega
    · simp at hi
    · simp at hi

/-- Witness for C19: on a snake that fills the array, `move` reaches index 63 and no
higher index, and `SnakeGrow` reads the head at index 63 without storing anything. -/
theorem accesses_in_bounds_witness :
    2 ≤ fullState.snake_len ∧ fullState.snake_len ≤ 64
    ∧ 63 ∈ moveIdx 'R' fullState ∧ (∀ i ∈ moveIdx 'R' fullState, i < 64)
    ∧ SnakeGrowIdx hold 65 fullState = [63]
    ∧ usub16 fullState.snake_len 2 + 2 = 64 :=
  have h := accesses_in_bounds fullState (by decide) (by decide)
  ⟨by decide, by decide, by decide, h.1 'R', by decide, h.2.2.2.2.2.2⟩

end Snake
